import Mathlib

/-!
# remote/servers.go: the Panel client of Wings

A shallow embedding of `src/remote/servers.go`.  The HTTP transport is an explicit
state (`World`): every call of `c.get` / `c.post` appends one `Exchange` to it, and
`res.Body.Close()` increments the close counter of the exchange that delivered `res`.
The goroutines started by `GetServers` are run under an explicit schedule.
-/

namespace Remote

/-! ## Definitions -/

/-! ### Data model -/

/-- Go `error` values that this file can see.  `transport`, `remote` and `decode` stand for
errors created outside `servers.go` (by `c.get` / `c.post`, by `res.Error()` and by
`res.BindJSON`); the other three are created in `servers.go` itself:
`&SftpInvalidCredentialsError{}`, `errors.New(msg)` and `errors.WrapIf(err, msg)`. -/
inductive Error where
  | transport (msg : String)
  | remote (msg : String)
  | decode (msg : String)
  | SftpInvalidCredentialsError
  | New (msg : String)
  | WrapIf (err : Error) (msg : String)
  deriving DecidableEq, Repr

/-- Modelled from the spec: the `Error()` method of an error value, its message.  A remote
error carries the control plane's message and `errors.New(msg)` has message `msg`; the
texts for `SftpInvalidCredentialsError` and for a wrapped error are defined outside
`servers.go` and no statement below depends on them. -/
def Error.message : Error → String
  | .transport msg => msg
  | .remote msg => msg
  | .decode msg => msg
  | .SftpInvalidCredentialsError => "the credentials provided were invalid"
  | .New msg => msg
  | .WrapIf err msg => msg ++ ": " ++ err.message

/-- Modelled from the spec: Pagination Metadata (current page, last page).  The type
`Pagination` is declared outside `servers.go`; the conversion `int(page)` there shows that
its counters are not `int`, and they are taken as Go `uint`, 64 bits wide: natural numbers
below `2 ^ 64`. -/
structure Pagination where
  CurrentPage : Nat
  LastPage : Nat
  deriving DecidableEq, Repr

/-- Modelled from the spec: a Server Record, a payload identified by a string key; the type
`RawServerData` is declared outside `servers.go`. -/
structure RawServerData where
  Uuid : String
  deriving DecidableEq, Repr

/-- Modelled from the spec: the typed payloads decoded by the configuration operations; the
types are declared outside `servers.go` and their content is not inspected by it. -/
structure ServerConfigurationResponse where
  payload : String
  deriving DecidableEq, Repr

/-- Modelled from the spec: installation script payload (declared outside `servers.go`). -/
structure InstallationScript where
  payload : String
  deriving DecidableEq, Repr

/-- Modelled from the spec: credential-check response (declared outside `servers.go`). -/
structure SftpAuthResponse where
  payload : String
  deriving DecidableEq, Repr

/-- Modelled from the spec: upload-URL response (declared outside `servers.go`). -/
structure BackupRemoteUploadResponse where
  payload : String
  deriving DecidableEq, Repr

/-- Modelled from the spec: credential-check request `(user, ip, password)`; `servers.go`
reads `request.User` and `request.IP`. -/
structure SftpAuthRequest where
  User : String
  IP : String
  Pass : String
  deriving DecidableEq, Repr

/-- Modelled from the spec: backup status fields (declared outside `servers.go`). -/
structure BackupRequest where
  payload : String
  deriving DecidableEq, Repr

/-- The anonymous struct `r` of `getServersPaged`: `Data` and `Meta`. -/
structure ServersPage where
  Data : List RawServerData
  Meta : Pagination
  deriving DecidableEq, Repr

/-- Modelled from the spec: what `res.BindJSON(&target)` leaves behind, the target after
binding and the decode error (`none` for `nil`). -/
structure Binding (T : Type) where
  value : T
  err : Option Error
  deriving DecidableEq, Repr

/-- Modelled from the spec: the response object of the transport collaborator (declared
outside `servers.go`): status code, the error it carries (`res.Error()`, `none` for `nil`),
and the outcome of `BindJSON` for each target shape `servers.go` binds. -/
structure Response where
  StatusCode : Int
  err : Option Error
  servers : Binding ServersPage
  config : Binding ServerConfigurationResponse
  script : Binding InstallationScript
  auth : Binding SftpAuthResponse
  upload : Binding BackupRemoteUploadResponse
  deriving DecidableEq, Repr

/-- Go `res.Error()`. -/
def Response.Error (res : Response) : Option Error := res.err

/-- Modelled from the spec: `res.HasError()`, whether the response carries an error. -/
def Response.HasError (res : Response) : Bool := res.err.isSome

/-- Go `context.Context`, reduced to whether it has been cancelled. -/
structure Context where
  done : Bool
  deriving DecidableEq, Repr

inductive Method where
  | GET
  | POST
  deriving DecidableEq, Repr

/-- Go `q{...}`: query parameters, in the order written. -/
abbrev q := List (String × String)

/-- Go `d{...}`: a JSON object of booleans, as used in this file. -/
abbrev d := List (String × Bool)

/-- The body argument of `c.post`. -/
inductive Payload where
  | nil
  | data (fields : d)
  | sftp (request : SftpAuthRequest)
  | backup (data : BackupRequest)
  deriving DecidableEq, Repr

structure Request where
  method : Method
  path : String
  query : q
  body : Payload
  deriving DecidableEq, Repr

/-! ### The transport as explicit state -/

/-- One call of the transport: the context and request it was given, what it delivered, and
how many times the body of the delivered response has been closed. -/
structure Exchange where
  ctx : Context
  req : Request
  out : Except Error Response
  closed : Nat

/-- A warning emitted through the logging collaborator: fields and message. -/
structure LogEntry where
  fields : List (String × String)
  msg : String
  deriving DecidableEq, Repr

/-- The state outside the client: all transport calls so far (oldest first) and the
warnings logged so far. -/
structure World where
  exchanges : List Exchange
  warnings : List LogEntry

/-- A transport behaviour: what a call delivers, given everything that happened before. -/
abbrev Transport := World → Context → Request → Except Error Response

structure client where
  transport : Transport

/-- A delivered response together with the index of its exchange, whose body `Close`
releases. -/
structure Handle where
  id : Nat
  res : Response

/-- Increment the close counter of the exchange at index `n`. -/
def closeAt : Nat → List Exchange → List Exchange
  | _, [] => []
  | 0, x :: xs => { x with closed := x.closed + 1 } :: xs
  | n + 1, x :: xs => x :: closeAt n xs

/-- Go `res.Body.Close()`. -/
def Handle.Close (h : Handle) (w : World) : World :=
  { w with exchanges := closeAt h.id w.exchanges }

/-- The request primitive shared by `get` and `post`: one transport call, recorded. -/
def client.request (c : client) (ctx : Context) (req : Request) (w : World) :
    Except Error Handle × World :=
  let out := c.transport w ctx req
  let w1 : World := { w with exchanges := w.exchanges ++ [⟨ctx, req, out, 0⟩] }
  match out with
  | .error e => (.error e, w1)
  | .ok res => (.ok ⟨w.exchanges.length, res⟩, w1)

/-- Go `c.get(ctx, path, query)`. -/
def client.get (c : client) (ctx : Context) (path : String) (query : q) (w : World) :
    Except Error Handle × World :=
  c.request ctx ⟨.GET, path, query, .nil⟩ w

/-- Go `c.post(ctx, path, body)`. -/
def client.post (c : client) (ctx : Context) (path : String) (body : Payload) (w : World) :
    Except Error Handle × World :=
  c.request ctx ⟨.POST, path, [], body⟩ w

/-- Go `strconv.Itoa`: the decimal representation of an integer. -/
def Itoa (i : Int) : String := toString i

/-- Go `strconv.FormatInt(size, 10)`. -/
def FormatInt (i : Int) : String := toString i

/-! ### The operations of `servers.go` -/

def client.ResetServersState (c : client) (ctx : Context) (w : World) :
    Option Error × World :=
  match c.post ctx "/servers/reset" .nil w with
  | (.error err, w1) =>
    (some (.WrapIf err "remote/servers: failed to reset server state on Panel"), w1)
  | (.ok res, w1) => (none, res.Close w1)

def client.GetServerConfiguration (c : client) (ctx : Context) (uuid : String) (w : World) :
    (ServerConfigurationResponse × Option Error) × World :=
  let config : ServerConfigurationResponse := ⟨""⟩
  match c.get ctx ("/servers/" ++ uuid) [] w with
  | (.error err, w1) => ((config, some err), w1)
  | (.ok res, w1) =>
    if res.res.HasError then ((config, res.res.Error), res.Close w1)
    else ((res.res.config.value, res.res.config.err), res.Close w1)

def client.GetInstallationScript (c : client) (ctx : Context) (uuid : String) (w : World) :
    (InstallationScript × Option Error) × World :=
  match c.get ctx ("/servers/" ++ uuid ++ "/install") [] w with
  | (.error err, w1) => ((⟨""⟩, some err), w1)
  | (.ok res, w1) =>
    if res.res.HasError then ((⟨""⟩, res.res.Error), res.Close w1)
    else ((res.res.script.value, res.res.script.err), res.Close w1)

def client.SetInstallationStatus (c : client) (ctx : Context) (uuid : String)
    (successful : Bool) (w : World) : Option Error × World :=
  match c.post ctx ("/servers/" ++ uuid ++ "/install") (.data [("successful", successful)]) w with
  | (.error err, w1) => (some err, w1)
  | (.ok resp, w1) => (resp.res.Error, resp.Close w1)

def client.SetArchiveStatus (c : client) (ctx : Context) (uuid : String)
    (successful : Bool) (w : World) : Option Error × World :=
  match c.post ctx ("/servers/" ++ uuid ++ "/archive") (.data [("successful", successful)]) w with
  | (.error err, w1) => (some err, w1)
  | (.ok resp, w1) => (resp.res.Error, resp.Close w1)

def client.SetTransferStatus (c : client) (ctx : Context) (uuid : String)
    (successful : Bool) (w : World) : Option Error × World :=
  let state := if successful then "success" else "failure"
  match c.get ctx ("/servers/" ++ uuid ++ "/transfer/" ++ state) [] w with
  | (.error err, w1) => (some err, w1)
  | (.ok resp, w1) => (resp.res.Error, resp.Close w1)

/-- Go `log.WithFields(...).Warn(msg)`. -/
def World.Warn (w : World) (fields : List (String × String)) (msg : String) : World :=
  { w with warnings := w.warnings ++ [⟨fields, msg⟩] }

def client.ValidateSftpCredentials (c : client) (ctx : Context) (request : SftpAuthRequest)
    (w : World) : (SftpAuthResponse × Option Error) × World :=
  let auth : SftpAuthResponse := ⟨""⟩
  match c.post ctx "/sftp/auth" (.sftp request) w with
  | (.error err, w1) => ((auth, some err), w1)
  | (.ok res, w1) =>
    match res.res.Error with
    | some e =>
      if res.res.StatusCode ≥ 400 ∧ res.res.StatusCode < 500 then
        let w2 := w1.Warn
          [("subsystem", "sftp"), ("username", request.User), ("ip", request.IP)] e.message
        ((auth, some .SftpInvalidCredentialsError), res.Close w2)
      else
        ((auth, some (.New e.message)), res.Close w1)
    | none => ((res.res.auth.value, res.res.auth.err), res.Close w1)

def client.GetBackupRemoteUploadURLs (c : client) (ctx : Context) (backup : String)
    (size : Int) (w : World) : (BackupRemoteUploadResponse × Option Error) × World :=
  let data : BackupRemoteUploadResponse := ⟨""⟩
  match c.get ctx ("/backups/" ++ backup) [("size", FormatInt size)] w with
  | (.error err, w1) => ((data, some err), w1)
  | (.ok res, w1) =>
    if res.res.HasError then ((data, res.res.Error), res.Close w1)
    else ((res.res.upload.value, res.res.upload.err), res.Close w1)

def client.SetBackupStatus (c : client) (ctx : Context) (backup : String)
    (data : BackupRequest) (w : World) : Option Error × World :=
  match c.post ctx ("/backups/" ++ backup) (.backup data) w with
  | (.error err, w1) => (some err, w1)
  | (.ok resp, w1) => (resp.res.Error, resp.Close w1)

def client.SendRestorationStatus (c : client) (ctx : Context) (backup : String)
    (successful : Bool) (w : World) : Option Error × World :=
  match c.post ctx ("/backups/" ++ backup ++ "/restore") (.data [("successful", successful)]) w with
  | (.error err, w1) => (some err, w1)
  | (.ok resp, w1) => (resp.res.Error, resp.Close w1)

/-- The result triple of `getServersPaged`. -/
structure Paged where
  servers : List RawServerData
  Meta : Pagination
  err : Option Error
  deriving DecidableEq, Repr

/-- The request `getServersPaged` sends for `page` and `limit`. -/
def pageRequest (page limit : Int) : Request :=
  ⟨.GET, "/servers", [("page", Itoa page), ("per_page", Itoa limit)], .nil⟩

def client.getServersPaged (c : client) (ctx : Context) (page limit : Int) (w : World) :
    Paged × World :=
  match c.get ctx "/servers" [("page", Itoa page), ("per_page", Itoa limit)] w with
  | (.error err, w1) => (⟨[], ⟨0, 0⟩, some err⟩, w1)
  | (.ok res, w1) =>
    if res.res.HasError then (⟨[], ⟨0, 0⟩, res.res.Error⟩, res.Close w1)
    else
      match res.res.servers.err with
      | some err => (⟨[], res.res.servers.value.Meta, some err⟩, res.Close w1)
      | none => (⟨res.res.servers.value.Data, res.res.servers.value.Meta, none⟩, res.Close w1)

/-! ### The goroutines of `GetServers` under a schedule -/

/-- One goroutine started by `g.Go` in `GetServers`: not yet past its call of
`getServersPaged` for `page`; holding the page it fetched and waiting for `mu.Lock()`;
or returned. -/
inductive Task where
  | spawned (page : Nat)
  | fetched (ps : List RawServerData)
  | returned (err : Option Error)
  deriving DecidableEq, Repr

/-- The errgroup `g` with the variable `servers` its goroutines share: the goroutines, the
collection guarded by `mu`, and the first error a goroutine returned. -/
structure Group where
  tasks : List Task
  servers : List RawServerData
  err : Option Error

/-- The context of `errgroup.WithContext(ctx)`: cancelled with its parent, and as soon as a
goroutine has returned an error. -/
def Group.ctx (parent : Context) (g : Group) : Context :=
  ⟨parent.done || g.err.isSome⟩

/-- The errgroup keeps the first error only. -/
def Group.fail (g : Group) (err : Error) : Option Error :=
  match g.err with
  | some first => some first
  | none => some err

/-- Run goroutine `i` up to its next synchronisation point: a spawned goroutine performs
its `getServersPaged` call and returns on error; a goroutine holding a page takes the lock,
appends, unlocks and returns `nil`.  The conversion `int(page)` is taken as the page index
itself, which it is for every index below `2 ^ 63`. -/
def client.stepTask (c : client) (ctx : Context) (limit : Int) (st : Group × World) (i : Nat) :
    Group × World :=
  match st.1.tasks[i]? with
  | none => st
  | some (.spawned page) =>
    let r := c.getServersPaged (st.1.ctx ctx) (page : Int) limit st.2
    match r.1.err with
    | some err =>
      ({ st.1 with tasks := st.1.tasks.set i (.returned (some err)), err := st.1.fail err }, r.2)
    | none => ({ st.1 with tasks := st.1.tasks.set i (.fetched r.1.servers) }, r.2)
  | some (.fetched ps) =>
    ({ st.1 with tasks := st.1.tasks.set i (.returned none), servers := st.1.servers ++ ps }, st.2)
  | some (.returned _) => st

/-- Go `g.Wait()`: the goroutines run interleaved as the schedule `sched` says (a list of
goroutine indices, one entry per step), and every goroutine that has not returned by then
is run to its end, so that all of them have returned when `Wait` does. -/
def client.Wait (c : client) (ctx : Context) (limit : Int) (sched : List Nat)
    (st : Group × World) : Group × World :=
  let n := st.1.tasks.length
  (sched ++ (List.range n ++ List.range n)).foldl (c.stepTask ctx limit) st

/-- The page indices of the loop
`for page := meta.CurrentPage + 1; page <= meta.LastPage; page++` over 64-bit unsigned
integers: the start `meta.CurrentPage + 1` wraps to 0 when `meta.CurrentPage` is
`2 ^ 64 - 1`, and the loop visits every index from the start up to `meta.LastPage` (none
when the start is above it).  For `meta.LastPage = 2 ^ 64 - 1` the Go loop does not end;
the list stops at that index. -/
def remainingPages (m : Pagination) : List Nat :=
  List.range' ((m.CurrentPage + 1) % 2 ^ 64) (m.LastPage + 1 - (m.CurrentPage + 1) % 2 ^ 64)

def client.GetServers (c : client) (sched : List Nat) (ctx : Context) (limit : Int)
    (w : World) : (List RawServerData × Option Error) × World :=
  let r := c.getServersPaged ctx 0 limit w
  match r.1.err with
  | some err => (([], some err), r.2)
  | none =>
    if r.1.Meta.LastPage > 1 then
      let g := c.Wait ctx limit sched
        (⟨(remainingPages r.1.Meta).map .spawned, r.1.servers, none⟩, r.2)
      match g.1.err with
      | some err => (([], some err), g.2)
      | none => ((g.1.servers, none), g.2)
    else ((r.1.servers, none), r.2)

/-! ### Reading the transport log -/

/-- The exchanges performed since the world was `w0`. -/
def World.since (w w0 : World) : List Exchange :=
  w.exchanges.drop w0.exchanges.length

/-- The error `getServersPaged` returns for an exchange (`none` for `nil`). -/
def Exchange.pageErr (x : Exchange) : Option Error :=
  match x.out with
  | .error err => some err
  | .ok res => if res.HasError then res.Error else res.servers.err

/-- The record list `getServersPaged` returns for an exchange. -/
def Exchange.pageData (x : Exchange) : List RawServerData :=
  match x.out with
  | .error _ => []
  | .ok res => if res.HasError then [] else
    match res.servers.err with
    | some _ => []
    | none => res.servers.value.Data

/-- The metadata `getServersPaged` returns for an exchange. -/
def Exchange.pageMeta (x : Exchange) : Pagination :=
  match x.out with
  | .error _ => ⟨0, 0⟩
  | .ok res => if res.HasError then ⟨0, 0⟩ else res.servers.value.Meta

/-- Whether the transport delivered a response in this exchange. -/
def Exchange.delivered (x : Exchange) : Bool :=
  match x.out with
  | .error _ => false
  | .ok _ => true

/-- The error status of the delivered response, if any. -/
def Exchange.status (x : Exchange) : Option Error :=
  match x.out with
  | .error _ => none
  | .ok res => res.Error

/-! ### Models of the control plane -/

/-- Read a decimal number, digit by digit. -/
def parseDigits : List Char → Nat → Option Nat
  | [], acc => some acc
  | ch :: cs, acc =>
    if ch.isDigit then parseDigits cs (acc * 10 + (ch.toNat - 48)) else none

/-- The value of query parameter `key` read as a decimal number, 0 when absent or not a
number. -/
def queryNat (req : Request) (key : String) : Nat :=
  ((req.query.lookup key).bind fun s => parseDigits s.data 0).getD 0

/-- A successful paged response: status 200, no error, body binding to `data` and `m`. -/
def pageResponse (data : List RawServerData) (m : Pagination) : Response :=
  { StatusCode := 200, err := none, servers := ⟨⟨data, m⟩, none⟩, config := ⟨⟨""⟩, none⟩,
    script := ⟨⟨""⟩, none⟩, auth := ⟨⟨""⟩, none⟩, upload := ⟨⟨""⟩, none⟩ }

/-- The number of pages: `max(1, ceil(R / L))`. -/
def lastPageOf (R L : Nat) : Nat := max 1 ((R + L - 1) / L)

/-- A control plane holding `records` that reads `page` as a zero-based page index `k`
(records `k*L .. (k+1)*L-1`, `L` being `per_page`) and reports `current_page = k + 1`. -/
def zeroBasedPanel (records : List RawServerData) : Transport := fun _ _ req =>
  let k := queryNat req "page"
  let L := queryNat req "per_page"
  .ok (pageResponse ((records.drop (k * L)).take L) ⟨k + 1, lastPageOf records.length L⟩)

/-- A Panel holding `records` that numbers pages from 1 and answers a request for page `p`
with page `max(p, 1)` (records `(max(p,1)-1)*L .. max(p,1)*L-1`, `L` being `per_page`),
reporting `current_page = max(p, 1)`. -/
def Panel (records : List RawServerData) : Transport := fun _ _ req =>
  let p := max (queryNat req "page") 1
  let L := queryNat req "per_page"
  .ok (pageResponse ((records.drop ((p - 1) * L)).take L) ⟨p, lastPageOf records.length L⟩)

/-- The empty world: no transport call and no warning yet. -/
def World.empty : World := ⟨[], []⟩

/-- Records `s0, s1, ..` for examples. -/
def sampleRecords (n : Nat) : List RawServerData :=
  (List.range n).map fun i => ⟨"s" ++ toString i⟩

/-! ### The operations as one type -/

/-- A call of one of the operations of the client, with its arguments (for `GetServers`
also the schedule under which its goroutines run). -/
inductive Call where
  | GetServers (sched : List Nat) (limit : Int)
  | ResetServersState
  | GetServerConfiguration (uuid : String)
  | GetInstallationScript (uuid : String)
  | SetInstallationStatus (uuid : String) (successful : Bool)
  | SetArchiveStatus (uuid : String) (successful : Bool)
  | SetTransferStatus (uuid : String) (successful : Bool)
  | ValidateSftpCredentials (request : SftpAuthRequest)
  | GetBackupRemoteUploadURLs (backup : String) (size : Int)
  | SetBackupStatus (backup : String) (data : BackupRequest)
  | SendRestorationStatus (backup : String) (successful : Bool)
  deriving DecidableEq, Repr

/-- Run a call: the error it returns (`none` for `nil`) and the world it leaves. -/
def Call.run (c : client) (ctx : Context) (w : World) : Call → Option Error × World
  | .GetServers sched limit => ((c.GetServers sched ctx limit w).1.2, (c.GetServers sched ctx limit w).2)
  | .ResetServersState => c.ResetServersState ctx w
  | .GetServerConfiguration uuid =>
    ((c.GetServerConfiguration ctx uuid w).1.2, (c.GetServerConfiguration ctx uuid w).2)
  | .GetInstallationScript uuid =>
    ((c.GetInstallationScript ctx uuid w).1.2, (c.GetInstallationScript ctx uuid w).2)
  | .SetInstallationStatus uuid successful => c.SetInstallationStatus ctx uuid successful w
  | .SetArchiveStatus uuid successful => c.SetArchiveStatus ctx uuid successful w
  | .SetTransferStatus uuid successful => c.SetTransferStatus ctx uuid successful w
  | .ValidateSftpCredentials request =>
    ((c.ValidateSftpCredentials ctx request w).1.2, (c.ValidateSftpCredentials ctx request w).2)
  | .GetBackupRemoteUploadURLs backup size =>
    ((c.GetBackupRemoteUploadURLs ctx backup size w).1.2,
      (c.GetBackupRemoteUploadURLs ctx backup size w).2)
  | .SetBackupStatus backup data => c.SetBackupStatus ctx backup data w
  | .SendRestorationStatus backup successful => c.SendRestorationStatus ctx backup successful w

/-- The request a call sends first (for all but `GetServers`, its only request). -/
def Call.request : Call → Request
  | .GetServers _ limit => pageRequest 0 limit
  | .ResetServersState => ⟨.POST, "/servers/reset", [], .nil⟩
  | .GetServerConfiguration uuid => ⟨.GET, "/servers/" ++ uuid, [], .nil⟩
  | .GetInstallationScript uuid => ⟨.GET, "/servers/" ++ uuid ++ "/install", [], .nil⟩
  | .SetInstallationStatus uuid successful =>
    ⟨.POST, "/servers/" ++ uuid ++ "/install", [], .data [("successful", successful)]⟩
  | .SetArchiveStatus uuid successful =>
    ⟨.POST, "/servers/" ++ uuid ++ "/archive", [], .data [("successful", successful)]⟩
  | .SetTransferStatus uuid successful =>
    ⟨.GET, "/servers/" ++ uuid ++ "/transfer/" ++ (if successful then "success" else "failure"),
      [], .nil⟩
  | .ValidateSftpCredentials request => ⟨.POST, "/sftp/auth", [], .sftp request⟩
  | .GetBackupRemoteUploadURLs backup size =>
    ⟨.GET, "/backups/" ++ backup, [("size", FormatInt size)], .nil⟩
  | .SetBackupStatus backup data => ⟨.POST, "/backups/" ++ backup, [], .backup data⟩
  | .SendRestorationStatus backup successful =>
    ⟨.POST, "/backups/" ++ backup ++ "/restore", [], .data [("successful", successful)]⟩

/-- The five status and notification operations, which return `resp.Error()`. -/
def Call.isStatus : Call → Bool
  | .SetInstallationStatus _ _ => true
  | .SetArchiveStatus _ _ => true
  | .SetTransferStatus _ _ => true
  | .SetBackupStatus _ _ => true
  | .SendRestorationStatus _ _ => true
  | _ => false

/-! ### Auxiliary notions for the proofs -/

/-- The exchange a call of the transport leaves in the log once the caller has closed the
body of the response, if one was delivered. -/
def settled (c : client) (ctx : Context) (req : Request) (w : World) : Exchange :=
  match c.transport w ctx req with
  | .error e => ⟨ctx, req, .error e, 0⟩
  | .ok res => ⟨ctx, req, .ok res, 1⟩

/-- The request a goroutine has still to send. -/
def Task.requests (limit : Int) : Task → List Request
  | .spawned page => [pageRequest (page : Int) limit]
  | _ => []

/-- The page a goroutine holds and has still to append. -/
def Task.held : Task → List (List RawServerData)
  | .fetched ps => [ps]
  | _ => []

/-- How many steps a goroutine is away from having returned, at most. -/
def Task.rank : Task → Nat
  | .spawned _ => 2
  | .fetched _ => 1
  | .returned _ => 0

/-- The record list a successful page exchange contributes (none when the fetch failed). -/
def Exchange.chunk (x : Exchange) : List (List RawServerData) :=
  match x.pageErr with
  | none => [x.pageData]
  | some _ => []

/-- What holds of the group at every point of a run that started with the goroutines for
`pages` all spawned, the collection `s0` and the world `w0`; `new` are the exchanges
performed since. -/
structure Inv (c : client) (limit : Int) (pages : List Nat) (s0 : List RawServerData) (w0 : World)
    (new : List Exchange) (st : Group × World) : Prop where
  world : st.2 = ⟨w0.exchanges ++ new, w0.warnings⟩
  closed : ∀ x ∈ new, x.closed = if x.delivered then 1 else 0
  reqs : (new.map (fun x => x.req) ++ st.1.tasks.flatMap (Task.requests limit)).Perm
    (pages.map fun (p : Nat) => pageRequest (p : Int) limit)
  chunks : ∃ L : List (List RawServerData), st.1.servers = s0 ++ L.flatten ∧
    (L ++ st.1.tasks.flatMap Task.held).Perm (new.flatMap Exchange.chunk)
  noErr : st.1.err = none → ∀ x ∈ new, x.pageErr = none
  someErr : ∀ e, st.1.err = some e → ∃ x ∈ new, x.pageErr = some e
  outs : ∀ x ∈ new, ∃ w1, x.out = c.transport w1 x.ctx x.req

/-- The rank of goroutine `j`, 0 when there is no such goroutine. -/
def rankAt (tasks : List Task) (j : Nat) : Nat :=
  match tasks[j]? with
  | some t => t.rank
  | none => 0

/-- The pages `GetServers` fetches after page 0, as the page-0 exchange decides. -/
def fetchPlan (x0 : Exchange) : List Nat :=
  match x0.pageErr with
  | some _ => []
  | none => if x0.pageMeta.LastPage > 1 then remainingPages x0.pageMeta else []

/-! ### Example transports -/

/-- A response with status `code` carrying the remote error `msg`. -/
def errorResponse (code : Int) (msg : String) : Response :=
  { StatusCode := code, err := some (.remote msg), servers := ⟨⟨[], ⟨0, 0⟩⟩, none⟩,
    config := ⟨⟨""⟩, none⟩, script := ⟨⟨""⟩, none⟩, auth := ⟨⟨""⟩, none⟩,
    upload := ⟨⟨""⟩, none⟩ }

/-- A control plane that answers every request with status `code` and message `msg`. -/
def failingPanel (code : Int) (msg : String) : Transport := fun _ _ _ =>
  .ok (errorResponse code msg)

/-- A transport that cannot dispatch any request. -/
def deadTransport : Transport := fun _ _ _ => .error (.transport "connection refused")

/-- The records the Panel serves for a request. -/
def panelData (records : List RawServerData) (req : Request) : List RawServerData :=
  (records.drop ((max (queryNat req "page") 1 - 1) * queryNat req "per_page")).take
    (queryNat req "per_page")

/-! ## Theorems -/

/-! ### One transport call -/

theorem closeAt_length_append (xs : List Exchange) (x : Exchange) :
    closeAt xs.length (xs ++ [x]) = xs ++ [{ x with closed := x.closed + 1 }] := by
  induction xs with
  | nil => rfl
  | cons y ys ih => simp [closeAt, ih]

theorem settled_req (c : client) (ctx : Context) (req : Request) (w : World) :
    (settled c ctx req w).req = req := by
  unfold settled; split <;> rfl

theorem settled_ctx (c : client) (ctx : Context) (req : Request) (w : World) :
    (settled c ctx req w).ctx = ctx := by
  unfold settled; split <;> rfl

theorem settled_out (c : client) (ctx : Context) (req : Request) (w : World) :
    (settled c ctx req w).out = c.transport w ctx req := by
  unfold settled; split <;> simp_all

theorem settled_closed (c : client) (ctx : Context) (req : Request) (w : World) :
    (settled c ctx req w).closed = if (settled c ctx req w).delivered then 1 else 0 := by
  unfold settled; split <;> simp [Exchange.delivered]

/-- A failed transport call: nothing delivered, the world grows by the settled exchange. -/
theorem request_error (c : client) (ctx : Context) (req : Request) (w : World) (e : Error)
    (h : c.transport w ctx req = .error e) :
    c.request ctx req w = (.error e, ⟨w.exchanges ++ [settled c ctx req w], w.warnings⟩) := by
  simp [client.request, settled, h]

/-- A delivered response: once closed, the world has grown by the settled exchange. -/
theorem request_ok (c : client) (ctx : Context) (req : Request) (w : World) (res : Response)
    (h : c.transport w ctx req = .ok res) :
    ∃ hd : Handle, hd.res = res ∧
      c.request ctx req w = (.ok hd, ⟨w.exchanges ++ [⟨ctx, req, .ok res, 0⟩], w.warnings⟩) ∧
      hd.Close ⟨w.exchanges ++ [⟨ctx, req, .ok res, 0⟩], w.warnings⟩
        = ⟨w.exchanges ++ [settled c ctx req w], w.warnings⟩ := by
  refine ⟨⟨w.exchanges.length, res⟩, rfl, ?_, ?_⟩
  · simp [client.request, h]
  · simp [Handle.Close, closeAt_length_append, settled, h]

/-- What `getServersPaged` does: one exchange, settled, and the result read off it. -/
theorem getServersPaged_spec (c : client) (ctx : Context) (page limit : Int) (w : World) :
    (c.getServersPaged ctx page limit w).2
        = ⟨w.exchanges ++ [settled c ctx (pageRequest page limit) w], w.warnings⟩ ∧
      (c.getServersPaged ctx page limit w).1.err
        = (settled c ctx (pageRequest page limit) w).pageErr ∧
      (c.getServersPaged ctx page limit w).1.servers
        = (settled c ctx (pageRequest page limit) w).pageData ∧
      (c.getServersPaged ctx page limit w).1.Meta
        = (settled c ctx (pageRequest page limit) w).pageMeta := by
  cases h : c.transport w ctx (pageRequest page limit) with
  | error e =>
    have h1 := request_error c ctx _ w e h
    have hs : settled c ctx (pageRequest page limit) w = ⟨ctx, pageRequest page limit, .error e, 0⟩ := by
      simp [settled, h]
    simp only [client.getServersPaged, client.get]
    rw [show (⟨.GET, "/servers", [("page", Itoa page), ("per_page", Itoa limit)], .nil⟩ : Request)
      = pageRequest page limit from rfl, h1]
    simp [hs, Exchange.pageErr, Exchange.pageData, Exchange.pageMeta]
  | ok res =>
    obtain ⟨hd, hres, h1, h2⟩ := request_ok c ctx _ w res h
    have hs : settled c ctx (pageRequest page limit) w = ⟨ctx, pageRequest page limit, .ok res, 1⟩ := by
      simp [settled, h]
    simp only [client.getServersPaged, client.get]
    rw [show (⟨.GET, "/servers", [("page", Itoa page), ("per_page", Itoa limit)], .nil⟩ : Request)
      = pageRequest page limit from rfl, h1]
    simp only [hres]
    by_cases he : res.HasError
    · simp [he, h2, hs, Exchange.pageErr, Exchange.pageData, Exchange.pageMeta]
    · cases hb : res.servers.err with
      | none => simp [he, hb, h2, hs, Exchange.pageErr, Exchange.pageData, Exchange.pageMeta]
      | some e => simp [he, hb, h2, hs, Exchange.pageErr, Exchange.pageData, Exchange.pageMeta]

/-! ### Invariants of the goroutine group -/

theorem perm_flatMap_set {α β : Type} (f : α → List β) (l : List α) (i : Nat) (t t' : α)
    (h : l[i]? = some t) : (f t ++ (l.set i t').flatMap f).Perm (f t' ++ l.flatMap f) := by
  induction l generalizing i with
  | nil => simp at h
  | cons a l ih =>
    cases i with
    | zero =>
      simp at h; subst h
      simp only [List.set_cons_zero, List.flatMap_cons]
      rw [← Multiset.coe_eq_coe]
      simp only [← Multiset.coe_add]
      abel
    | succ i =>
      simp at h
      have h1 := ih i h
      simp only [List.set_cons_succ, List.flatMap_cons]
      rw [← Multiset.coe_eq_coe] at h1 ⊢
      simp only [← Multiset.coe_add] at h1 ⊢
      rw [add_left_comm, h1]
      abel

theorem perm_advance {β : Type} {A T T' P a b : List β} (h : (A ++ T).Perm P)
    (hp : (a ++ T').Perm (b ++ T)) : ((A ++ a) ++ T').Perm (P ++ b) := by
  rw [← Multiset.coe_eq_coe] at h hp ⊢
  simp only [← Multiset.coe_add] at h hp ⊢
  rw [← h, add_assoc, hp]
  abel

theorem Inv.init (c : client) (limit : Int) (pages : List Nat) (s0 : List RawServerData)
    (w0 : World) :
    Inv c limit pages s0 w0 [] (⟨pages.map .spawned, s0, none⟩, w0) where
  world := by simp
  closed := by simp
  reqs := by
    simp only [List.map_nil, List.nil_append]
    induction pages with
    | nil => simp
    | cons p ps ih => simpa [List.flatMap_cons, Task.requests] using ih
  chunks := by
    refine ⟨[], by simp, ?_⟩
    simp only [List.nil_append, List.flatMap_nil]
    induction pages with
    | nil => simp
    | cons p ps ih => simp [List.flatMap_cons, Task.held, ih]
  noErr := by simp
  someErr := by simp
  outs := by simp

theorem Inv.step (c : client) (ctx : Context) {limit : Int} {pages : List Nat}
    {s0 : List RawServerData} {w0 : World} {new : List Exchange} {st : Group × World}
    (h : Inv c limit pages s0 w0 new st) (i : Nat) :
    ∃ new', Inv c limit pages s0 w0 new' (c.stepTask ctx limit st i) := by
  unfold client.stepTask
  cases hti : st.1.tasks[i]? with
  | none => exact ⟨new, h⟩
  | some t =>
    cases t with
    | returned e => exact ⟨new, h⟩
    | fetched ps =>
      refine ⟨new, ?_⟩
      obtain ⟨L, hL, hperm⟩ := h.chunks
      have hp1 := perm_flatMap_set (Task.requests limit) st.1.tasks i _ (.returned none) hti
      have hp2 := perm_flatMap_set Task.held st.1.tasks i _ (.returned none) hti
      constructor
      · exact h.world
      · exact h.closed
      · have := perm_advance h.reqs hp1
        simpa [Task.requests] using this
      · refine ⟨L ++ [ps], by simp [hL], ?_⟩
        have := perm_advance hperm hp2
        simpa [Task.held] using this
      · exact h.noErr
      · exact h.someErr
      · exact h.outs
    | spawned page =>
      obtain ⟨hw, he, hs, -⟩ := getServersPaged_spec c (st.1.ctx ctx) (page : Int) limit st.2
      obtain ⟨L, hL, hperm⟩ := h.chunks
      refine ⟨new ++ [settled c (st.1.ctx ctx) (pageRequest (page : Int) limit) st.2], ?_⟩
      have hcl : ∀ x ∈ new ++ [settled c (st.1.ctx ctx) (pageRequest (page : Int) limit) st.2],
          x.closed = if x.delivered then 1 else 0 := by
        intro x hx
        rcases List.mem_append.1 hx with hx | hx
        · exact h.closed x hx
        · rw [List.mem_singleton.1 hx]; exact settled_closed _ _ _ _
      have hout : ∀ x ∈ new ++ [settled c (st.1.ctx ctx) (pageRequest (page : Int) limit) st.2],
          ∃ w1, x.out = c.transport w1 x.ctx x.req := by
        intro x hx
        rcases List.mem_append.1 hx with hx | hx
        · exact h.outs x hx
        · rw [List.mem_singleton.1 hx]
          exact ⟨st.2, by rw [settled_out, settled_ctx, settled_req]⟩
      cases hr : (c.getServersPaged (st.1.ctx ctx) (page : Int) limit st.2).1.err with
      | some err =>
        have hp1 := perm_flatMap_set (Task.requests limit) st.1.tasks i _
          (.returned (some err)) hti
        have hp2 := perm_flatMap_set Task.held st.1.tasks i _ (.returned (some err)) hti
        rw [hr] at he
        simp only [hr]
        constructor
        · simp only [hw]
          simp [h.world]
        · exact hcl
        · have := perm_advance h.reqs hp1
          simpa [Task.requests, settled_req] using this
        · refine ⟨L, hL, ?_⟩
          have := perm_advance hperm hp2
          simpa [Task.held, Exchange.chunk, ← he] using this
        · intro hnone
          simp [Group.fail] at hnone
          split at hnone <;> simp at hnone
        · intro e hsome
          cases hg : st.1.err with
          | none =>
            simp [Group.fail, hg] at hsome
            exact ⟨_, List.mem_append_right _ (List.mem_singleton_self _), by rw [← he, hsome]⟩
          | some e0 =>
            simp [Group.fail, hg] at hsome
            obtain ⟨x, hx, hxe⟩ := h.someErr e0 hg
            exact ⟨x, by simp [hx], by rw [hxe, hsome]⟩
        · exact hout
      | none =>
        have hp1 := perm_flatMap_set (Task.requests limit) st.1.tasks i _
          (.fetched (c.getServersPaged (st.1.ctx ctx) (page : Int) limit st.2).1.servers) hti
        have hp2 := perm_flatMap_set Task.held st.1.tasks i _
          (.fetched (c.getServersPaged (st.1.ctx ctx) (page : Int) limit st.2).1.servers) hti
        rw [hr] at he
        simp only [hr]
        constructor
        · simp only [hw]
          simp [h.world]
        · exact hcl
        · have := perm_advance h.reqs hp1
          simpa [Task.requests, settled_req] using this
        · refine ⟨L, hL, ?_⟩
          have := perm_advance hperm hp2
          simpa [Task.held, Exchange.chunk, ← he, hs] using this
        · intro hnone x hx
          rcases List.mem_append.1 hx with hx | hx
          · exact h.noErr hnone x hx
          · rw [List.mem_singleton.1 hx]; exact he.symm
        · intro e hsome
          obtain ⟨x, hx, hxe⟩ := h.someErr e hsome
          exact ⟨x, by simp [hx], hxe⟩
        · exact hout

theorem Inv.run (c : client) (ctx : Context) {limit : Int} {pages : List Nat}
    {s0 : List RawServerData} {w0 : World} (sched : List Nat) :
    ∀ {new : List Exchange} {st : Group × World}, Inv c limit pages s0 w0 new st →
      ∃ new', Inv c limit pages s0 w0 new' (sched.foldl (c.stepTask ctx limit) st) := by
  induction sched with
  | nil => intro new st h; exact ⟨new, h⟩
  | cons i is ih =>
    intro new st h
    obtain ⟨new1, h1⟩ := h.step c ctx i
    exact ih h1

/-! ### `Wait` returns with every goroutine returned -/

theorem rankAt_le_two (tasks : List Task) (j : Nat) : rankAt tasks j ≤ 2 := by
  unfold rankAt
  cases tasks[j]? with
  | none => simp
  | some t => cases t <;> simp [Task.rank]

theorem rankAt_set (tasks : List Task) (i j : Nat) (t : Task) :
    rankAt (tasks.set i t) j
      = if i = j ∧ i < tasks.length then t.rank else rankAt tasks j := by
  unfold rankAt
  rw [List.getElem?_set]
  by_cases hij : i = j
  · subst hij
    by_cases hlt : i < tasks.length
    · simp [hlt]
    · simp [hlt, List.getElem?_eq_none (Nat.le_of_not_lt hlt)]
  · simp [hij]

theorem stepTask_length (c : client) (ctx : Context) (limit : Int) (st : Group × World)
    (i : Nat) : (c.stepTask ctx limit st i).1.tasks.length = st.1.tasks.length := by
  unfold client.stepTask
  split
  · rfl
  · dsimp only; split <;> simp
  · simp
  · rfl

theorem stepTask_rank_le (c : client) (ctx : Context) (limit : Int) (st : Group × World)
    (i j : Nat) : rankAt (c.stepTask ctx limit st i).1.tasks j ≤ rankAt st.1.tasks j := by
  unfold client.stepTask
  split
  · exact le_refl _
  next page hti =>
    have hi : rankAt st.1.tasks i = 2 := by simp [rankAt, hti, Task.rank]
    dsimp only
    split <;>
    · simp only [rankAt_set]
      split
      next hc => rw [← hc.1, hi]; simp [Task.rank]
      · exact le_refl _
  next ps hti =>
    have hi : rankAt st.1.tasks i = 1 := by simp [rankAt, hti, Task.rank]
    simp only [rankAt_set]
    split
    next hc => rw [← hc.1, hi]; simp [Task.rank]
    · exact le_refl _
  · exact le_refl _

theorem stepTask_rank_lt (c : client) (ctx : Context) (limit : Int) (st : Group × World)
    (i : Nat) : rankAt (c.stepTask ctx limit st i).1.tasks i ≤ rankAt st.1.tasks i - 1 := by
  unfold client.stepTask
  split
  next hti => simp [rankAt, hti]
  next page hti =>
    have hi : rankAt st.1.tasks i = 2 := by simp [rankAt, hti, Task.rank]
    have hlt : i < st.1.tasks.length := by
      by_contra hge
      rw [List.getElem?_eq_none (Nat.le_of_not_lt hge)] at hti
      cases hti
    dsimp only
    split <;> simp [rankAt_set, hlt, hi, Task.rank]
  next ps hti =>
    have hi : rankAt st.1.tasks i = 1 := by simp [rankAt, hti, Task.rank]
    have hlt : i < st.1.tasks.length := by
      by_contra hge
      rw [List.getElem?_eq_none (Nat.le_of_not_lt hge)] at hti
      cases hti
    simp [rankAt_set, hlt, hi, Task.rank]
  next e hti => simp [rankAt, hti, Task.rank]

theorem run_rank (c : client) (ctx : Context) (limit : Int) (is : List Nat) :
    ∀ st : Group × World,
      (is.foldl (c.stepTask ctx limit) st).1.tasks.length = st.1.tasks.length ∧
      (∀ j, rankAt (is.foldl (c.stepTask ctx limit) st).1.tasks j ≤ rankAt st.1.tasks j) ∧
      (∀ j ∈ is, rankAt (is.foldl (c.stepTask ctx limit) st).1.tasks j
        ≤ rankAt st.1.tasks j - 1) := by
  induction is with
  | nil => intro st; simp
  | cons i is ih =>
    intro st
    obtain ⟨hlen, hle, hlt⟩ := ih (c.stepTask ctx limit st i)
    refine ⟨by rw [List.foldl_cons, hlen, stepTask_length], ?_, ?_⟩
    · intro j
      exact le_trans (hle j) (stepTask_rank_le c ctx limit st i j)
    · intro j hj
      rw [List.foldl_cons]
      rcases List.mem_cons.1 hj with hj | hj
      · subst hj
        exact le_trans (hle j) (stepTask_rank_lt c ctx limit st j)
      · exact le_trans (hlt j hj) (Nat.sub_le_sub_right (stepTask_rank_le c ctx limit st i j) 1)

theorem Wait_rank (c : client) (ctx : Context) (limit : Int) (sched : List Nat)
    (st : Group × World) (j : Nat) : rankAt (c.Wait ctx limit sched st).1.tasks j = 0 := by
  unfold client.Wait
  simp only [List.foldl_append]
  obtain ⟨hlen0, -, -⟩ := run_rank c ctx limit sched st
  obtain ⟨hlen1, -, hlt1⟩ := run_rank c ctx limit (List.range st.1.tasks.length)
    (sched.foldl (c.stepTask ctx limit) st)
  obtain ⟨hlen2, -, hlt2⟩ := run_rank c ctx limit (List.range st.1.tasks.length)
    ((List.range st.1.tasks.length).foldl (c.stepTask ctx limit)
      (sched.foldl (c.stepTask ctx limit) st))
  by_cases hj : j < st.1.tasks.length
  · have h1 := hlt1 j (List.mem_range.2 hj)
    have h2 := hlt2 j (List.mem_range.2 hj)
    have h0 := rankAt_le_two (sched.foldl (c.stepTask ctx limit) st).1.tasks j
    omega
  · unfold rankAt
    rw [List.getElem?_eq_none]
    rw [hlen2, hlen1, hlen0]
    exact Nat.le_of_not_lt hj

theorem flatMap_of_rank_zero (limit : Int) (tasks : List Task)
    (h : ∀ j, rankAt tasks j = 0) :
    tasks.flatMap (Task.requests limit) = [] ∧ tasks.flatMap Task.held = [] := by
  have hall : ∀ t ∈ tasks, t.rank = 0 := by
    intro t ht
    obtain ⟨j, hj⟩ := List.mem_iff_getElem?.1 ht
    have := h j
    simpa [rankAt, hj] using this
  constructor
  · rw [List.flatMap_eq_nil_iff]
    intro t ht
    have := hall t ht
    cases t <;> simp_all [Task.rank, Task.requests]
  · rw [List.flatMap_eq_nil_iff]
    intro t ht
    have := hall t ht
    cases t <;> simp_all [Task.rank, Task.held]

/-- What `Wait` leaves behind, for the goroutines of `pages` started on collection `s0` in
world `w0`: the exchanges `new` it performed are the page requests, each delivered response
closed once, the collection is `s0` followed by the fetched pages in some order, and the
group error is the error of one of the failed fetches. -/
theorem Wait_spec (c : client) (ctx : Context) (limit : Int) (sched : List Nat)
    (pages : List Nat) (s0 : List RawServerData) (w0 : World) :
    ∃ new : List Exchange,
      (c.Wait ctx limit sched (⟨pages.map .spawned, s0, none⟩, w0)).2
        = ⟨w0.exchanges ++ new, w0.warnings⟩ ∧
      (∀ x ∈ new, x.closed = if x.delivered then 1 else 0) ∧
      (new.map fun x => x.req).Perm (pages.map fun (p : Nat) => pageRequest (p : Int) limit) ∧
      (∃ L : List (List RawServerData),
        (c.Wait ctx limit sched (⟨pages.map .spawned, s0, none⟩, w0)).1.servers
          = s0 ++ L.flatten ∧ L.Perm (new.flatMap Exchange.chunk)) ∧
      ((c.Wait ctx limit sched (⟨pages.map .spawned, s0, none⟩, w0)).1.err = none →
        ∀ x ∈ new, x.pageErr = none) ∧
      (∀ e, (c.Wait ctx limit sched (⟨pages.map .spawned, s0, none⟩, w0)).1.err = some e →
        ∃ x ∈ new, x.pageErr = some e) ∧
      (∀ x ∈ new, ∃ w1, x.out = c.transport w1 x.ctx x.req) := by
  have hrank := Wait_rank c ctx limit sched (⟨pages.map .spawned, s0, none⟩, w0)
  obtain ⟨hreq, hheld⟩ := flatMap_of_rank_zero limit _ hrank
  obtain ⟨new, hinv⟩ := Inv.run c ctx
    (sched ++ (List.range (pages.map Task.spawned).length
      ++ List.range (pages.map Task.spawned).length))
    (Inv.init c limit pages s0 w0)
  have hreqs := hinv.reqs
  obtain ⟨L, hL, hperm⟩ := hinv.chunks
  refine ⟨new, hinv.world, hinv.closed, ?_, ⟨L, hL, ?_⟩, hinv.noErr, hinv.someErr, hinv.outs⟩
  · have h2 : (c.Wait ctx limit sched (⟨pages.map .spawned, s0, none⟩, w0)).1.tasks.flatMap
        (Task.requests limit) = [] := hreq
    unfold client.Wait at h2
    rw [h2, List.append_nil] at hreqs
    exact hreqs
  · have h2 : (c.Wait ctx limit sched (⟨pages.map .spawned, s0, none⟩, w0)).1.tasks.flatMap
        Task.held = [] := hheld
    unfold client.Wait at h2
    rw [h2, List.append_nil] at hperm
    exact hperm

/-! ### The trace of `GetServers` -/

theorem flatMap_chunk_of_ok (xs : List Exchange) (h : ∀ x ∈ xs, x.pageErr = none) :
    xs.flatMap Exchange.chunk = xs.map Exchange.pageData := by
  induction xs with
  | nil => rfl
  | cons x xs ih =>
    have hx : x.pageErr = none := h x (List.mem_cons_self _ _)
    have hxs := ih fun y hy => h y (List.mem_cons_of_mem _ hy)
    simp [List.flatMap_cons, Exchange.chunk, hx, hxs]

/-- The trace of `GetServers`: the page-0 exchange, then the exchanges `rest` of the
goroutines; every delivered response closed once; the requests of `rest` are those of the
fetch plan; a `nil` error means every fetch succeeded and the result is page 0 followed by
the other pages in some order; an error is the error of a failed fetch and comes with no
records. -/
theorem GetServers_spec (c : client) (sched : List Nat) (ctx : Context) (limit : Int)
    (w : World) :
    ∃ rest : List Exchange,
      (c.GetServers sched ctx limit w).2
        = ⟨w.exchanges ++ settled c ctx (pageRequest 0 limit) w :: rest, w.warnings⟩ ∧
      (∀ x ∈ settled c ctx (pageRequest 0 limit) w :: rest,
        x.closed = if x.delivered then 1 else 0) ∧
      (rest.map fun x => x.req).Perm
        ((fetchPlan (settled c ctx (pageRequest 0 limit) w)).map
          fun (p : Nat) => pageRequest (p : Int) limit) ∧
      (∀ x ∈ settled c ctx (pageRequest 0 limit) w :: rest,
        ∃ w1, x.out = c.transport w1 x.ctx x.req) ∧
      ((c.GetServers sched ctx limit w).1.2 = none →
        (∀ x ∈ settled c ctx (pageRequest 0 limit) w :: rest, x.pageErr = none) ∧
        ∃ L : List (List RawServerData),
          (c.GetServers sched ctx limit w).1.1
            = (settled c ctx (pageRequest 0 limit) w).pageData ++ L.flatten ∧
          L.Perm (rest.map Exchange.pageData)) ∧
      (∀ e, (c.GetServers sched ctx limit w).1.2 = some e →
        (c.GetServers sched ctx limit w).1.1 = [] ∧
        ∃ x ∈ settled c ctx (pageRequest 0 limit) w :: rest, x.pageErr = some e) := by
  obtain ⟨hw, he, hs, hm⟩ := getServersPaged_spec c ctx 0 limit w
  have hout0 : ∃ w1, (settled c ctx (pageRequest 0 limit) w).out
      = c.transport w1 (settled c ctx (pageRequest 0 limit) w).ctx
          (settled c ctx (pageRequest 0 limit) w).req :=
    ⟨w, by rw [settled_out, settled_ctx, settled_req]⟩
  unfold client.GetServers
  cases hr : (c.getServersPaged ctx 0 limit w).1.err with
  | some err =>
    rw [hr] at he
    refine ⟨[], ?_, ?_, ?_, ?_, ?_, ?_⟩
    · simp only [hr, hw]
    · intro x hx
      rw [List.mem_singleton.1 hx]; exact settled_closed _ _ _ _
    · simp [fetchPlan, ← he]
    · intro x hx
      rw [List.mem_singleton.1 hx]; exact hout0
    · simp [hr]
    · intro e hsome
      simp only [hr] at hsome ⊢
      simp only [Option.some.injEq] at hsome
      exact ⟨trivial, _, List.mem_singleton_self _, by rw [← he, hsome]⟩
  | none =>
    rw [hr] at he
    by_cases hlast : (c.getServersPaged ctx 0 limit w).1.Meta.LastPage > 1
    · obtain ⟨new, hW, hcl, hreq, ⟨L, hL, hperm⟩, hnone, hsome, houts⟩ :=
        Wait_spec c ctx limit sched (remainingPages (c.getServersPaged ctx 0 limit w).1.Meta)
          (c.getServersPaged ctx 0 limit w).1.servers (c.getServersPaged ctx 0 limit w).2
      have hplan : fetchPlan (settled c ctx (pageRequest 0 limit) w)
          = remainingPages (c.getServersPaged ctx 0 limit w).1.Meta := by
        rw [hm] at hlast ⊢
        simp [fetchPlan, ← he, hlast]
      refine ⟨new, ?_, ?_, ?_, ?_, ?_, ?_⟩
      · simp only [hr, hlast, if_true]
        have hW2 : (c.Wait ctx limit sched
            (⟨(remainingPages (c.getServersPaged ctx 0 limit w).1.Meta).map .spawned,
              (c.getServersPaged ctx 0 limit w).1.servers, none⟩,
              (c.getServersPaged ctx 0 limit w).2)).2
            = ⟨w.exchanges ++ settled c ctx (pageRequest 0 limit) w :: new, w.warnings⟩ := by
          rw [hW, hw]; simp
        split <;> exact hW2
      · intro x hx
        rcases List.mem_cons.1 hx with hx | hx
        · rw [hx]; exact settled_closed _ _ _ _
        · exact hcl x hx
      · rw [hplan]; exact hreq
      · intro x hx
        rcases List.mem_cons.1 hx with hx | hx
        · rw [hx]; exact hout0
        · exact houts x hx
      · simp only [hr, hlast, if_true]
        split
        · intro habs; cases habs
        next hgn =>
          intro _
          have hok := hnone hgn
          refine ⟨?_, L, ?_, ?_⟩
          · intro x hx
            rcases List.mem_cons.1 hx with hx | hx
            · rw [hx]; exact he.symm
            · exact hok x hx
          · rw [← hs]; exact hL
          · rw [← flatMap_chunk_of_ok new hok]; exact hperm
      · intro e
        simp only [hr, hlast, if_true]
        split
        next err hge =>
          intro hee
          simp only [Option.some.injEq] at hee
          obtain ⟨x, hx, hxe⟩ := hsome err hge
          exact ⟨rfl, x, List.mem_cons_of_mem _ hx, by rw [hxe, hee]⟩
        · intro habs; cases habs
    · have hplan : fetchPlan (settled c ctx (pageRequest 0 limit) w) = [] := by
        rw [hm] at hlast
        simp [fetchPlan, ← he, hlast]
      refine ⟨[], ?_, ?_, ?_, ?_, ?_, ?_⟩
      · simp only [hr, hlast, if_false, hw]
      · intro x hx
        rw [List.mem_singleton.1 hx]; exact settled_closed _ _ _ _
      · simp [hplan]
      · intro x hx
        rw [List.mem_singleton.1 hx]; exact hout0
      · simp only [hr, hlast, if_false]
        intro _
        refine ⟨?_, [], by simp [hs], by simp⟩
        intro x hx
        rw [List.mem_singleton.1 hx]; exact he.symm
      · intro e
        simp only [hr, hlast, if_false]
        intro habs; cases habs

/-! ### The trace of the single-request operations -/

theorem since_append (w : World) (new : List Exchange) (ws : List LogEntry) :
    World.since ⟨w.exchanges ++ new, ws⟩ w = new := by
  simp [World.since]

/-- Every operation but `GetServers` performs exactly one exchange, its request, and closes
the body of the response exactly when one was delivered. -/
theorem run_exchanges (c : client) (ctx : Context) (w : World) (call : Call)
    (h : ∀ sched limit, call ≠ .GetServers sched limit) :
    (call.run c ctx w).2.exchanges = w.exchanges ++ [settled c ctx call.request w] := by
  cases call with
  | GetServers sched limit => exact absurd rfl (h sched limit)
  | ResetServersState =>
    cases ht : c.transport w ctx ⟨.POST, "/servers/reset", [], .nil⟩ <;>
      simp [Call.run, Call.request, client.ResetServersState, client.post, client.request, ht,
        Handle.Close, closeAt_length_append, settled]
  | GetServerConfiguration uuid =>
    cases ht : c.transport w ctx ⟨.GET, "/servers/" ++ uuid, [], .nil⟩ <;>
      simp [Call.run, Call.request, client.GetServerConfiguration, client.get, client.request,
        ht, Handle.Close, closeAt_length_append, settled]
    split <;> rfl
  | GetInstallationScript uuid =>
    cases ht : c.transport w ctx ⟨.GET, "/servers/" ++ uuid ++ "/install", [], .nil⟩ <;>
      simp [Call.run, Call.request, client.GetInstallationScript, client.get, client.request,
        ht, Handle.Close, closeAt_length_append, settled]
    split <;> rfl
  | SetInstallationStatus uuid successful =>
    cases ht : c.transport w ctx
        ⟨.POST, "/servers/" ++ uuid ++ "/install", [], .data [("successful", successful)]⟩ <;>
      simp [Call.run, Call.request, client.SetInstallationStatus, client.post, client.request,
        ht, Handle.Close, closeAt_length_append, settled]
  | SetArchiveStatus uuid successful =>
    cases ht : c.transport w ctx
        ⟨.POST, "/servers/" ++ uuid ++ "/archive", [], .data [("successful", successful)]⟩ <;>
      simp [Call.run, Call.request, client.SetArchiveStatus, client.post, client.request,
        ht, Handle.Close, closeAt_length_append, settled]
  | SetTransferStatus uuid successful =>
    cases ht : c.transport w ctx
        ⟨.GET, "/servers/" ++ uuid ++ "/transfer/" ++ (if successful then "success" else "failure"),
          [], .nil⟩ <;>
      simp [Call.run, Call.request, client.SetTransferStatus, client.get, client.request,
        ht, Handle.Close, closeAt_length_append, settled]
  | ValidateSftpCredentials request =>
    cases ht : c.transport w ctx ⟨.POST, "/sftp/auth", [], .sftp request⟩ with
    | error e =>
      simp [Call.run, Call.request, client.ValidateSftpCredentials, client.post,
        client.request, ht, settled]
    | ok res =>
      simp only [Call.run, Call.request, client.ValidateSftpCredentials, client.post,
        client.request, ht, settled]
      cases he : res.Error with
      | none => simp [Handle.Close, closeAt_length_append]
      | some e =>
        by_cases hs : res.StatusCode ≥ 400 ∧ res.StatusCode < 500
        · simp [hs, Handle.Close, closeAt_length_append, World.Warn]
        · simp only [hs, if_false]
          simp [Handle.Close, closeAt_length_append]
  | GetBackupRemoteUploadURLs backup size =>
    cases ht : c.transport w ctx ⟨.GET, "/backups/" ++ backup, [("size", FormatInt size)], .nil⟩ <;>
      simp [Call.run, Call.request, client.GetBackupRemoteUploadURLs, client.get,
        client.request, ht, Handle.Close, closeAt_length_append, settled]
    split <;> rfl
  | SetBackupStatus backup data =>
    cases ht : c.transport w ctx ⟨.POST, "/backups/" ++ backup, [], .backup data⟩ <;>
      simp [Call.run, Call.request, client.SetBackupStatus, client.post, client.request,
        ht, Handle.Close, closeAt_length_append, settled]
  | SendRestorationStatus backup successful =>
    cases ht : c.transport w ctx
        ⟨.POST, "/backups/" ++ backup ++ "/restore", [], .data [("successful", successful)]⟩ <;>
      simp [Call.run, Call.request, client.SendRestorationStatus, client.post, client.request,
        ht, Handle.Close, closeAt_length_append, settled]

/-- A call whose first transport call fails with `e`: no further request is made;
`ResetServersState` returns `e` wrapped by `errors.WrapIf`, every other operation `e`
itself. -/
theorem run_of_transport_error (c : client) (ctx : Context) (w : World) (call : Call)
    (e : Error) (h : c.transport w ctx call.request = .error e) :
    call.run c ctx w =
      (if call = .ResetServersState then
          some (.WrapIf e "remote/servers: failed to reset server state on Panel")
        else some e,
        ⟨w.exchanges ++ [⟨ctx, call.request, .error e, 0⟩], w.warnings⟩) := by
  cases call <;>
    simp_all [Call.run, Call.request, client.GetServers, client.getServersPaged,
      client.ResetServersState, client.GetServerConfiguration, client.GetInstallationScript,
      client.SetInstallationStatus, client.SetArchiveStatus, client.SetTransferStatus,
      client.ValidateSftpCredentials, client.GetBackupRemoteUploadURLs, client.SetBackupStatus,
      client.SendRestorationStatus, client.get, client.post, client.request, pageRequest]

/-- A single-request call other than `ResetServersState` whose response carries an error
returns a non-nil error; the status operations return the error of the response itself. -/
theorem run_of_error_status (c : client) (ctx : Context) (w : World) (call : Call)
    (res : Response) (e : Error) (h : c.transport w ctx call.request = .ok res)
    (he : res.Error = some e) (h1 : ∀ sched limit, call ≠ .GetServers sched limit)
    (h2 : call ≠ .ResetServersState) :
    (call.run c ctx w).1 ≠ none ∧ (call.isStatus = true → (call.run c ctx w).1 = some e) := by
  have hh : res.HasError = true := by simp [Response.HasError, Response.Error] at he ⊢; simp [he]
  cases call with
  | GetServers sched limit => exact absurd rfl (h1 sched limit)
  | ResetServersState => exact absurd rfl h2
  | ValidateSftpCredentials request =>
    simp only [Call.request] at h
    simp only [Call.run, client.ValidateSftpCredentials, client.post, client.request, h, he]
    constructor
    · split <;> simp
    · simp [Call.isStatus]
  | _ =>
    simp_all [Call.run, Call.request, Call.isStatus,
      client.GetServerConfiguration, client.GetInstallationScript,
      client.SetInstallationStatus, client.SetArchiveStatus, client.SetTransferStatus,
      client.GetBackupRemoteUploadURLs, client.SetBackupStatus,
      client.SendRestorationStatus, client.get, client.post, client.request]

/-! ### The Panel serves every record -/

theorem digitChar_digit (n : Nat) (h : n < 10) :
    (Nat.digitChar n).isDigit = true ∧ (Nat.digitChar n).toNat - 48 = n := by
  interval_cases n <;> decide

theorem parseDigits_toDigitsCore (fuel : Nat) :
    ∀ (n : Nat) (ds : List Char), n < fuel →
      parseDigits (Nat.toDigitsCore 10 fuel n ds) 0 = parseDigits ds n := by
  induction fuel with
  | zero => intro n ds h; omega
  | succ fuel ih =>
    intro n ds h
    obtain ⟨hd1, hd2⟩ := digitChar_digit (n % 10) (Nat.mod_lt _ (by decide))
    unfold Nat.toDigitsCore
    by_cases h0 : n / 10 = 0
    · have hn : n % 10 = n := by omega
      simp only [h0, if_true]
      rw [parseDigits, if_pos hd1, hd2, hn]
      simp
    · simp only [h0, if_false]
      rw [ih (n / 10) _ (by omega), parseDigits, if_pos hd1, hd2]
      congr 1
      omega

/-- Reading back the decimal that `Itoa` wrote gives the number. -/
theorem parseDigits_Itoa (n : Nat) : parseDigits (Itoa (n : Int)).data 0 = some n := by
  have h : (Itoa (n : Int)).data = Nat.toDigitsCore 10 (n + 1) n [] := rfl
  rw [h, parseDigits_toDigitsCore (n + 1) n [] (by omega)]
  rfl

theorem queryNat_page (p L : Nat) : queryNat (pageRequest (p : Int) (L : Int)) "page" = p := by
  simp [queryNat, pageRequest, List.lookup, parseDigits_Itoa]

theorem queryNat_per_page (p L : Nat) :
    queryNat (pageRequest (p : Int) (L : Int)) "per_page" = L := by
  have hne : ("per_page" == "page") = false := by decide
  simp [queryNat, pageRequest, List.lookup, hne, parseDigits_Itoa]

theorem Panel_exchange (records : List RawServerData) (x : Exchange)
    (h : ∃ w1, x.out = Panel records w1 x.ctx x.req) :
    x.pageErr = none ∧ x.pageData = panelData records x.req ∧
      x.pageMeta = ⟨max (queryNat x.req "page") 1,
        lastPageOf records.length (queryNat x.req "per_page")⟩ := by
  obtain ⟨w1, hw1⟩ := h
  simp [Exchange.pageErr, Exchange.pageData, Exchange.pageMeta, hw1, Panel, pageResponse,
    Response.HasError, panelData]

theorem flatten_pages (records : List RawServerData) (L : Nat) :
    ∀ (n a : Nat), 1 ≤ a →
      ((List.range' a n).map fun p => (records.drop ((p - 1) * L)).take L).flatten
        = (records.drop ((a - 1) * L)).take (n * L) := by
  intro n
  induction n with
  | zero => intro a _; simp
  | succ n ih =>
    intro a ha
    rw [List.range'_succ, List.map_cons, List.flatten_cons, ih (a + 1) (by omega)]
    have h1 : (a + 1 - 1) * L = (a - 1) * L + L := by
      have : a + 1 - 1 = (a - 1) + 1 := by omega
      rw [this, Nat.add_mul, Nat.one_mul]
    have h2 : (n + 1) * L = L + n * L := by rw [Nat.add_mul, Nat.one_mul, Nat.add_comm]
    rw [h1, h2, List.take_add, List.drop_drop]

theorem lastPageOf_covers (R L : Nat) (hL : 1 ≤ L) : R ≤ lastPageOf R L * L := by
  have h1 : L * ((R + L - 1) / L) + (R + L - 1) % L = R + L - 1 := Nat.div_add_mod _ _
  have h2 : (R + L - 1) % L < L := Nat.mod_lt _ hL
  have h3 : (R + L - 1) / L * L ≤ lastPageOf R L * L :=
    Nat.mul_le_mul_right _ (le_max_right _ _)
  have h4 : L * ((R + L - 1) / L) = (R + L - 1) / L * L := Nat.mul_comm _ _
  omega

/-- What the Panel answers to the request for page `p` with `per_page = L`: the records of
page `max(p, 1)`, with `current_page = max(p, 1)` and `last_page = max(1, ceil(R / L))`. -/
theorem Panel_serves (records : List RawServerData) (p L : Nat) (w : World) (ctx : Context) :
    Panel records w ctx (pageRequest (p : Int) (L : Int))
      = .ok (pageResponse ((records.drop ((max p 1 - 1) * L)).take L)
          ⟨max p 1, max 1 ((records.length + L - 1) / L)⟩) := by
  simp only [Panel, queryNat_page, queryNat_per_page, lastPageOf]

/-- What the zero-based control plane answers to the request for page index `k` with
`per_page = L`: records `k*L .. (k+1)*L-1`, with `current_page = k + 1` and
`last_page = max(1, ceil(R / L))`. -/
theorem zeroBasedPanel_serves (records : List RawServerData) (k L : Nat) (w : World)
    (ctx : Context) :
    zeroBasedPanel records w ctx (pageRequest (k : Int) (L : Int))
      = .ok (pageResponse ((records.drop (k * L)).take L)
          ⟨k + 1, max 1 ((records.length + L - 1) / L)⟩) := by
  simp only [zeroBasedPanel, queryNat_page, queryNat_per_page, lastPageOf]

/-- On the Panel, under every schedule, `GetServers` returns no error and all the records:
a permutation of them that starts with the first page. -/
theorem Panel_GetServers (records : List RawServerData) (L : Nat) (hL : 1 ≤ L)
    (sched : List Nat) (ctx : Context) (w : World) :
    ((⟨Panel records⟩ : client).GetServers sched ctx (L : Int) w).1.2 = none ∧
    ((⟨Panel records⟩ : client).GetServers sched ctx (L : Int) w).1.1.Perm records ∧
    ((⟨Panel records⟩ : client).GetServers sched ctx (L : Int) w).1.1.take L
      = records.take L := by
  obtain ⟨rest, -, -, hreq, houts, hnone, hsome⟩ :=
    GetServers_spec ⟨Panel records⟩ sched ctx (L : Int) w
  have hq0 : queryNat (pageRequest 0 (L : Int)) "page" = 0 := queryNat_page 0 L
  have hq1 : queryNat (pageRequest 0 (L : Int)) "per_page" = L := queryNat_per_page 0 L
  have hx0 := Panel_exchange records _ (houts _ (List.mem_cons_self _ _))
  rw [settled_req, hq0, hq1] at hx0
  obtain ⟨hx0e, hx0d, hx0m⟩ := hx0
  have hx0d2 : (settled ⟨Panel records⟩ ctx (pageRequest 0 (L : Int)) w).pageData
      = records.take L := by
    rw [hx0d, panelData, hq0, hq1]
    simp
  have hplan : fetchPlan (settled ⟨Panel records⟩ ctx (pageRequest 0 (L : Int)) w)
      = List.range' 2 (lastPageOf records.length L - 1) := by
    simp only [fetchPlan, hx0e, hx0m, remainingPages]
    split
    · rfl
    next hle =>
      have : lastPageOf records.length L - 1 = 0 := by omega
      rw [this]; rfl
  rw [hplan] at hreq
  have hall : ∀ x ∈ settled ⟨Panel records⟩ ctx (pageRequest 0 (L : Int)) w :: rest,
      x.pageErr = none := fun x hx => (Panel_exchange records x (houts x hx)).1
  cases hr : ((⟨Panel records⟩ : client).GetServers sched ctx (L : Int) w).1.2 with
  | some e =>
    obtain ⟨-, x, hx, hxe⟩ := hsome e hr
    rw [hall x hx] at hxe
    cases hxe
  | none =>
    obtain ⟨-, P, hP, hperm⟩ := hnone hr
    have hdata : rest.map Exchange.pageData
        = (rest.map fun x => x.req).map (panelData records) := by
      rw [List.map_map]
      apply List.map_congr_left
      intro x hx
      exact (Panel_exchange records x (houts x (List.mem_cons_of_mem _ hx))).2.1
    have hchunks : (List.map (fun (p : Nat) => pageRequest (p : Int) (L : Int))
          (List.range' 2 (lastPageOf records.length L - 1))).map (panelData records)
        = (List.range' 2 (lastPageOf records.length L - 1)).map
            fun p => (records.drop ((p - 1) * L)).take L := by
      rw [List.map_map]
      apply List.map_congr_left
      intro p hp
      have hp2 : 2 ≤ p := (List.mem_range'_1.1 hp).1
      simp only [Function.comp, panelData, queryNat_page, queryNat_per_page]
      rw [max_eq_left (by omega)]
    have hperm2 : P.Perm ((List.range' 2 (lastPageOf records.length L - 1)).map
        fun p => (records.drop ((p - 1) * L)).take L) := by
      rw [← hchunks]
      rw [hdata] at hperm
      exact hperm.trans (hreq.map _)
    have hcover := lastPageOf_covers records.length L hL
    have hone : 1 ≤ lastPageOf records.length L := le_max_left _ _
    have hfull : records.take L
        ++ ((List.range' 2 (lastPageOf records.length L - 1)).map
            fun p => (records.drop ((p - 1) * L)).take L).flatten = records := by
      rw [flatten_pages records L _ 2 (by omega)]
      have h1 : (2 - 1) * L = L := by simp
      rw [h1, ← List.take_add]
      apply List.take_of_length_le
      have h2 : L + (lastPageOf records.length L - 1) * L = lastPageOf records.length L * L := by
        have : lastPageOf records.length L = (lastPageOf records.length L - 1) + 1 := by omega
        conv_rhs => rw [this, Nat.add_mul, Nat.one_mul, Nat.add_comm]
      omega
    rw [hx0d2] at hP
    refine ⟨rfl, ?_, ?_⟩
    · rw [hP]
      have := List.Perm.append_left (records.take L) hperm2.flatten
      rw [hfull] at this
      exact this
    · rw [hP]
      by_cases hlen : L ≤ records.length
      · rw [List.take_append_of_le_length (by simp [hlen])]
        simp
      · have hlen2 : records.length < L := Nat.lt_of_not_le hlen
        have hempty : ((List.range' 2 (lastPageOf records.length L - 1)).map
            fun p => (records.drop ((p - 1) * L)).take L).flatten = [] := by
          have h3 := congrArg List.length hfull
          rw [List.length_append, List.length_take] at h3
          have h4 : min L records.length = records.length := by omega
          rw [h4] at h3
          exact List.length_eq_zero.1 (by omega)
        have hPe : P.flatten = [] := by
          have := hperm2.flatten
          rw [hempty] at this
          exact this.eq_nil
        rw [hPe]
        simp

/-! ### The claims -/

/-- Every operation other than `ResetServersState` surfaces a remote failure: when one of
the responses delivered during the call carries an error, the call returns a non-nil
error. -/
theorem error_status_surfaced (c : client) (ctx : Context) (w : World) (call : Call)
    (h2 : call ≠ .ResetServersState)
    (h : ∃ x ∈ (call.run c ctx w).2.since w, x.status ≠ none) :
    (call.run c ctx w).1 ≠ none := by
  have hstatus : ∀ x : Exchange, x.status ≠ none → x.pageErr ≠ none := by
    intro x hx
    unfold Exchange.status at hx
    unfold Exchange.pageErr
    cases hout : x.out with
    | error e => simp
    | ok res =>
      rw [hout] at hx
      have hh : res.HasError = true := by
        cases he : res.Error with
        | none => exact absurd he hx
        | some e => simp [Response.HasError, Response.Error] at he ⊢; simp [he]
      simpa [hh] using hx
  by_cases hg : ∃ sched limit, call = .GetServers sched limit
  · obtain ⟨sched, limit, rfl⟩ := hg
    obtain ⟨rest, hw, -, -, -, hnone, -⟩ := GetServers_spec c sched ctx limit w
    simp only [Call.run] at h ⊢
    rw [hw, since_append] at h
    obtain ⟨x, hx, hxs⟩ := h
    intro habs
    exact hstatus x hxs ((hnone habs).1 x hx)
  · have hne : ∀ sched limit, call ≠ .GetServers sched limit := by
      intro sched limit heq
      exact hg ⟨sched, limit, heq⟩
    have hx := run_exchanges c ctx w call hne
    have hs : (call.run c ctx w).2.since w = [settled c ctx call.request w] := by
      simp [World.since, hx]
    rw [hs] at h
    obtain ⟨x, hxm, hxs⟩ := h
    rw [List.mem_singleton.1 hxm] at hxs
    cases ht : c.transport w ctx call.request with
    | error e => simp [Exchange.status, settled, ht] at hxs
    | ok res =>
      cases he : res.Error with
      | none => simp [Exchange.status, settled, ht, he] at hxs
      | some e => exact (run_of_error_status c ctx w call res e ht he hne h2).1

theorem settled_of_ok (c : client) (ctx : Context) (req : Request) (w : World)
    (res : Response) (h : c.transport w ctx req = .ok res) :
    settled c ctx req w = ⟨ctx, req, .ok res, 1⟩ := by
  simp [settled, h]

/-- C5: a single page needs a single request.  When the page-0 fetch succeeds and its
metadata reports `last_page <= 1` (whatever `current_page` is), `GetServers` performs
exactly one exchange, the page-0 GET (closed once), starts no goroutine, and returns the
record list decoded from that response, unchanged, with a nil error. -/
theorem GetServers_single_page (c : client) (sched : List Nat) (ctx : Context) (limit : Int)
    (w : World) (res : Response)
    (hres : c.transport w ctx
      ⟨.GET, "/servers", [("page", Itoa 0), ("per_page", Itoa limit)], .nil⟩ = .ok res)
    (herr : res.HasError = false) (hdec : res.servers.err = none)
    (hlast : res.servers.value.Meta.LastPage ≤ 1) :
    c.GetServers sched ctx limit w
      = ((res.servers.value.Data, none),
          ⟨w.exchanges ++ [⟨ctx,
            ⟨.GET, "/servers", [("page", Itoa 0), ("per_page", Itoa limit)], .nil⟩,
            .ok res, 1⟩], w.warnings⟩) := by
  have hres0 : c.transport w ctx (pageRequest 0 limit) = .ok res := hres
  have hx0 := settled_of_ok c ctx _ w res hres0
  obtain ⟨rest, hw, -, hreq, -, hnone, hsome⟩ := GetServers_spec c sched ctx limit w
  rw [hx0] at hw hreq hnone hsome
  have hpe : (⟨ctx, pageRequest 0 limit, .ok res, 1⟩ : Exchange).pageErr = none := by
    simp [Exchange.pageErr, herr, hdec]
  have hpd : (⟨ctx, pageRequest 0 limit, .ok res, 1⟩ : Exchange).pageData
      = res.servers.value.Data := by
    simp [Exchange.pageData, herr, hdec]
  have hplan : fetchPlan ⟨ctx, pageRequest 0 limit, .ok res, 1⟩ = [] := by
    simp [fetchPlan, hpe, Exchange.pageMeta, herr, Nat.not_lt.2 hlast]
  rw [hplan] at hreq
  have hrest : rest = [] := by
    have := hreq.eq_nil
    simpa using this
  subst hrest
  cases hr : (c.GetServers sched ctx limit w).1.2 with
  | some e =>
    obtain ⟨-, x, hx, hxe⟩ := hsome e hr
    rw [List.mem_singleton.1 hx, hpe] at hxe
    cases hxe
  | none =>
    obtain ⟨-, L, hL, hperm⟩ := hnone hr
    have hLnil : L = [] := by
      have := hperm.eq_nil
      simpa using this
    subst hLnil
    rw [hpd] at hL
    refine Prod.ext (Prod.ext ?_ hr) ?_
    · simpa using hL
    · rw [hw]; rfl

theorem GetServers_single_page_witness :
    (Panel (sampleRecords 7) World.empty ⟨false⟩
        ⟨.GET, "/servers", [("page", Itoa 0), ("per_page", Itoa 10)], .nil⟩
      = .ok (pageResponse (sampleRecords 7) ⟨1, 1⟩)) ∧
    (pageResponse (sampleRecords 7) ⟨1, 1⟩).HasError = false ∧
    (pageResponse (sampleRecords 7) ⟨1, 1⟩).servers.err = none ∧
    (pageResponse (sampleRecords 7) ⟨1, 1⟩).servers.value.Meta.LastPage ≤ 1 ∧
    (⟨Panel (sampleRecords 7)⟩ : client).GetServers [0, 1] ⟨false⟩ 10 World.empty
      = (((pageResponse (sampleRecords 7) ⟨1, 1⟩).servers.value.Data, none),
          ⟨World.empty.exchanges ++ [⟨⟨false⟩,
            ⟨.GET, "/servers", [("page", Itoa 0), ("per_page", Itoa 10)], .nil⟩,
            .ok (pageResponse (sampleRecords 7) ⟨1, 1⟩), 1⟩], World.empty.warnings⟩) :=
  ⟨by rfl, by rfl, by rfl, by decide,
    GetServers_single_page ⟨Panel (sampleRecords 7)⟩ [0, 1] ⟨false⟩ 10 World.empty
      (pageResponse (sampleRecords 7) ⟨1, 1⟩) (by rfl) (by rfl) (by rfl) (by decide)⟩

/-- C10, the claim as stated fails at the top of the integer range: a page-0 response that
reports `current_page = 2 ^ 64 - 1` and `last_page = 2` has `current_page >= last_page`,
so the claim says no further request is issued; but `meta.CurrentPage + 1` wraps to 0 and
`GetServers` requests pages 0, 1 and 2 after the page-0 request. -/
theorem GetServers_requests_wrap_at_max :
    (pageResponse [] ⟨2 ^ 64 - 1, 2⟩).servers.value.Meta.CurrentPage
      ≥ (pageResponse [] ⟨2 ^ 64 - 1, 2⟩).servers.value.Meta.LastPage ∧
    (((⟨fun _ _ _ => .ok (pageResponse [] ⟨2 ^ 64 - 1, 2⟩)⟩ : client).GetServers [] ⟨false⟩ 10
        World.empty).2.since World.empty).map (fun x => x.req.query)
      = [[("page", "0"), ("per_page", "10")],
         [("page", "0"), ("per_page", "10")],
         [("page", "1"), ("per_page", "10")],
         [("page", "2"), ("per_page", "10")]] ∧
    (((⟨fun _ _ _ => .ok (pageResponse [] ⟨2 ^ 64 - 1, 2⟩)⟩ : client).GetServers [] ⟨false⟩ 10
        World.empty).2.since World.empty).length ≠ 1 := by
  decide

/-- C10, amended: the page requests are determined by the page-0 metadata alone, for
metadata away from the top of the integer range.  When the page-0 fetch succeeds with
metadata `m`, `m.LastPage > 1`, `m.CurrentPage < 2 ^ 64 - 1` and `m.LastPage < 2 ^ 63` (so
that neither `m.CurrentPage + 1` nor `int(page)` wraps), the exchanges of `GetServers` are
the page-0 exchange followed by `rest`, whose requests are, in some order, exactly one GET
of `/servers` for each page index `p` in `m.CurrentPage + 1 .. m.LastPage`, with `page` the
decimal of `p` and `per_page` the decimal of the caller's limit, whatever the later
responses are; there is none when `m.CurrentPage >= m.LastPage`, and `m.LastPage - 1` of
them when `m.CurrentPage = 1`. -/
theorem GetServers_requests (c : client) (sched : List Nat) (ctx : Context) (limit : Int)
    (w : World) (res : Response)
    (hres : c.transport w ctx
      ⟨.GET, "/servers", [("page", Itoa 0), ("per_page", Itoa limit)], .nil⟩ = .ok res)
    (herr : res.HasError = false) (hdec : res.servers.err = none)
    (hlast : res.servers.value.Meta.LastPage > 1)
    (hcur : res.servers.value.Meta.CurrentPage < 2 ^ 64 - 1)
    (hmax : res.servers.value.Meta.LastPage < 2 ^ 63) :
    ∃ rest : List Exchange,
      (c.GetServers sched ctx limit w).2.since w
        = ⟨ctx, ⟨.GET, "/servers", [("page", Itoa 0), ("per_page", Itoa limit)], .nil⟩,
            .ok res, 1⟩ :: rest ∧
      (rest.map fun x => x.req).Perm
        ((List.range' (res.servers.value.Meta.CurrentPage + 1)
            (res.servers.value.Meta.LastPage - res.servers.value.Meta.CurrentPage)).map
          fun (p : Nat) => (⟨.GET, "/servers",
            [("page", Itoa (p : Int)), ("per_page", Itoa limit)], .nil⟩ : Request)) ∧
      (∀ p, p ∈ List.range' (res.servers.value.Meta.CurrentPage + 1)
            (res.servers.value.Meta.LastPage - res.servers.value.Meta.CurrentPage)
          ↔ res.servers.value.Meta.CurrentPage + 1 ≤ p ∧ p ≤ res.servers.value.Meta.LastPage) ∧
      (∀ x ∈ rest, ∃ p : Nat, p < 2 ^ 63 ∧
        x.req = ⟨.GET, "/servers", [("page", Itoa (p : Int)), ("per_page", Itoa limit)], .nil⟩) ∧
      (res.servers.value.Meta.CurrentPage ≥ res.servers.value.Meta.LastPage → rest = []) ∧
      (res.servers.value.Meta.CurrentPage = 1 →
        rest.length = res.servers.value.Meta.LastPage - 1) := by
  have hres0 : c.transport w ctx (pageRequest 0 limit) = .ok res := hres
  have hx0 := settled_of_ok c ctx _ w res hres0
  obtain ⟨rest, hw, -, hreq, -, -, -⟩ := GetServers_spec c sched ctx limit w
  rw [hx0] at hw hreq
  have hpe : (⟨ctx, pageRequest 0 limit, .ok res, 1⟩ : Exchange).pageErr = none := by
    simp [Exchange.pageErr, herr, hdec]
  have hmod : (res.servers.value.Meta.CurrentPage + 1) % 2 ^ 64
      = res.servers.value.Meta.CurrentPage + 1 := Nat.mod_eq_of_lt (by omega)
  have hcount : res.servers.value.Meta.LastPage + 1 - (res.servers.value.Meta.CurrentPage + 1)
      = res.servers.value.Meta.LastPage - res.servers.value.Meta.CurrentPage := by omega
  have hplan : fetchPlan ⟨ctx, pageRequest 0 limit, .ok res, 1⟩
      = List.range' (res.servers.value.Meta.CurrentPage + 1)
          (res.servers.value.Meta.LastPage - res.servers.value.Meta.CurrentPage) := by
    unfold fetchPlan
    rw [hpe]
    have hm : (⟨ctx, pageRequest 0 limit, .ok res, 1⟩ : Exchange).pageMeta
        = res.servers.value.Meta := by
      simp [Exchange.pageMeta, herr]
    simp only [hm, if_pos hlast]
    unfold remainingPages
    rw [hmod, hcount]
  rw [hplan] at hreq
  refine ⟨rest, ?_, hreq, ?_, ?_, ?_, ?_⟩
  · rw [hw, since_append]; rfl
  · intro p
    rw [List.mem_range'_1]
    omega
  · intro x hx
    have hmem : x.req ∈ rest.map fun x => x.req := List.mem_map_of_mem _ hx
    obtain ⟨p, hp, hpx⟩ := List.mem_map.1 (hreq.mem_iff.1 hmem)
    refine ⟨p, ?_, hpx.symm⟩
    have := List.mem_range'_1.1 hp
    omega
  · intro hge
    have h0 : res.servers.value.Meta.LastPage - res.servers.value.Meta.CurrentPage = 0 := by
      omega
    rw [h0] at hreq
    have := hreq.eq_nil
    simpa using this
  · intro hone
    have := hreq.length_eq
    simp only [List.length_map, List.length_range'] at this
    omega

theorem GetServers_requests_witness :
    (Panel (sampleRecords 30) World.empty ⟨false⟩
        ⟨.GET, "/servers", [("page", Itoa 0), ("per_page", Itoa 10)], .nil⟩
      = .ok (pageResponse ((sampleRecords 30).take 10) ⟨1, 3⟩)) ∧
    (pageResponse ((sampleRecords 30).take 10) ⟨1, 3⟩).HasError = false ∧
    (pageResponse ((sampleRecords 30).take 10) ⟨1, 3⟩).servers.err = none ∧
    (pageResponse ((sampleRecords 30).take 10) ⟨1, 3⟩).servers.value.Meta.LastPage > 1 ∧
    (pageResponse ((sampleRecords 30).take 10) ⟨1, 3⟩).servers.value.Meta.CurrentPage
      < 2 ^ 64 - 1 ∧
    (pageResponse ((sampleRecords 30).take 10) ⟨1, 3⟩).servers.value.Meta.LastPage < 2 ^ 63 ∧
    ∃ rest : List Exchange,
      ((⟨Panel (sampleRecords 30)⟩ : client).GetServers [1, 1, 0] ⟨false⟩ 10
          World.empty).2.since World.empty
        = ⟨⟨false⟩, ⟨.GET, "/servers", [("page", Itoa 0), ("per_page", Itoa 10)], .nil⟩,
            .ok (pageResponse ((sampleRecords 30).take 10) ⟨1, 3⟩), 1⟩ :: rest ∧
      (rest.map fun x => x.req).Perm
        ((List.range' (1 + 1) (3 - 1)).map
          fun (p : Nat) => (⟨.GET, "/servers",
            [("page", Itoa (p : Int)), ("per_page", Itoa 10)], .nil⟩ : Request)) ∧
      (∀ p, p ∈ List.range' (1 + 1) (3 - 1) ↔ 1 + 1 ≤ p ∧ p ≤ 3) ∧
      (∀ x ∈ rest, ∃ p : Nat, p < 2 ^ 63 ∧
        x.req = ⟨.GET, "/servers", [("page", Itoa (p : Int)), ("per_page", Itoa 10)], .nil⟩) ∧
      (1 ≥ 3 → rest = []) ∧
      (1 = 1 → rest.length = 3 - 1) :=
  ⟨by rfl, by rfl, by rfl, by decide, by decide, by decide,
    GetServers_requests ⟨Panel (sampleRecords 30)⟩ [1, 1, 0] ⟨false⟩ 10 World.empty
      (pageResponse ((sampleRecords 30).take 10) ⟨1, 3⟩) (by rfl) (by rfl) (by rfl)
      (by decide) (by decide) (by decide)⟩

/-- C9: every response body is released exactly once.  For every operation of the client
(for `GetServers`, under every schedule), every transport and every exit path: the
exchanges that existed before the call are untouched, the call performs at least its first
request, and each exchange it performed has a close count of 1 when the transport
delivered a response and of 0 when it delivered none. -/
theorem body_closed_exactly_once (c : client) (ctx : Context) (w : World) (call : Call) :
    (call.run c ctx w).2.exchanges.take w.exchanges.length = w.exchanges ∧
    (∃ x rest, (call.run c ctx w).2.since w = x :: rest ∧ x.req = call.request) ∧
    ∀ x ∈ (call.run c ctx w).2.since w, x.closed = if x.delivered then 1 else 0 := by
  by_cases hg : ∃ sched limit, call = .GetServers sched limit
  · obtain ⟨sched, limit, rfl⟩ := hg
    obtain ⟨rest, hw, hcl, -, -, -, -⟩ := GetServers_spec c sched ctx limit w
    simp only [Call.run, Call.request]
    rw [hw, since_append]
    exact ⟨by simp, ⟨_, rest, rfl, settled_req _ _ _ _⟩, hcl⟩
  · have hne : ∀ sched limit, call ≠ .GetServers sched limit := by
      intro sched limit heq
      exact hg ⟨sched, limit, heq⟩
    have hx := run_exchanges c ctx w call hne
    have hs : (call.run c ctx w).2.since w = [settled c ctx call.request w] := by
      simp [World.since, hx]
    rw [hs, hx]
    refine ⟨by simp, ⟨_, [], rfl, settled_req _ _ _ _⟩, ?_⟩
    intro x hxm
    rw [List.mem_singleton.1 hxm]
    exact settled_closed _ _ _ _

/-- C6: `ValidateSftpCredentials` classifies a delivered response three ways.  When the
response carries an error `e`, the result is the zero `SftpAuthResponse` with an
`SftpInvalidCredentialsError` if and only if `400 <= StatusCode < 500`; otherwise it is the
zero `SftpAuthResponse` with `errors.New(e.Error())`, a generic error that has the message
of `e` and is not an `SftpInvalidCredentialsError`.  When the response carries no error,
the result is what `BindJSON` made of the body. -/
theorem ValidateSftpCredentials_classifies (c : client) (ctx : Context)
    (request : SftpAuthRequest) (w : World) (res : Response)
    (h : c.transport w ctx ⟨.POST, "/sftp/auth", [], .sftp request⟩ = .ok res) :
    (∀ e, res.Error = some e →
      ((c.ValidateSftpCredentials ctx request w).1 = (⟨""⟩, some .SftpInvalidCredentialsError)
        ↔ 400 ≤ res.StatusCode ∧ res.StatusCode < 500) ∧
      (¬ (400 ≤ res.StatusCode ∧ res.StatusCode < 500) →
        (c.ValidateSftpCredentials ctx request w).1 = (⟨""⟩, some (.New e.message)) ∧
        (Error.New e.message).message = e.message ∧
        Error.New e.message ≠ .SftpInvalidCredentialsError)) ∧
    (res.Error = none →
      (c.ValidateSftpCredentials ctx request w).1 = (res.auth.value, res.auth.err)) := by
  constructor
  · intro e he
    by_cases hs : res.StatusCode ≥ 400 ∧ res.StatusCode < 500
    · simp [client.ValidateSftpCredentials, client.post, client.request, h, he, hs]
    · have hs2 : ¬ (400 ≤ res.StatusCode ∧ res.StatusCode < 500) := hs
      simp only [client.ValidateSftpCredentials, client.post, client.request, h, he, hs,
        if_false]
      simp [hs2, Error.message]
  · intro he
    simp [client.ValidateSftpCredentials, client.post, client.request, h, he]

theorem ValidateSftpCredentials_classifies_witness :
    (failingPanel 401 "Unauthenticated." World.empty ⟨false⟩
        ⟨.POST, "/sftp/auth", [], .sftp ⟨"admin.1a2b3c4d", "203.0.113.7", "hunter2"⟩⟩
      = .ok (errorResponse 401 "Unauthenticated.")) ∧
    (∀ e, (errorResponse 401 "Unauthenticated.").Error = some e →
      (((⟨failingPanel 401 "Unauthenticated."⟩ : client).ValidateSftpCredentials ⟨false⟩
          ⟨"admin.1a2b3c4d", "203.0.113.7", "hunter2"⟩ World.empty).1
          = (⟨""⟩, some .SftpInvalidCredentialsError)
        ↔ 400 ≤ (errorResponse 401 "Unauthenticated.").StatusCode
          ∧ (errorResponse 401 "Unauthenticated.").StatusCode < 500) ∧
      (¬ (400 ≤ (errorResponse 401 "Unauthenticated.").StatusCode
          ∧ (errorResponse 401 "Unauthenticated.").StatusCode < 500) →
        ((⟨failingPanel 401 "Unauthenticated."⟩ : client).ValidateSftpCredentials ⟨false⟩
          ⟨"admin.1a2b3c4d", "203.0.113.7", "hunter2"⟩ World.empty).1
          = (⟨""⟩, some (.New e.message)) ∧
        (Error.New e.message).message = e.message ∧
        Error.New e.message ≠ .SftpInvalidCredentialsError)) ∧
    ((errorResponse 401 "Unauthenticated.").Error = none →
      ((⟨failingPanel 401 "Unauthenticated."⟩ : client).ValidateSftpCredentials ⟨false⟩
          ⟨"admin.1a2b3c4d", "203.0.113.7", "hunter2"⟩ World.empty).1
        = ((errorResponse 401 "Unauthenticated.").auth.value,
            (errorResponse 401 "Unauthenticated.").auth.err)) :=
  ⟨rfl,
    ValidateSftpCredentials_classifies ⟨failingPanel 401 "Unauthenticated."⟩ ⟨false⟩
      ⟨"admin.1a2b3c4d", "203.0.113.7", "hunter2"⟩ World.empty
      (errorResponse 401 "Unauthenticated.") rfl⟩

/-- C8, the claim as stated fails for `ResetServersState`: when `c.post` fails with `e`, it
returns `errors.WrapIf(e, ...)`, which is not `e`. -/
theorem ResetServersState_wraps_transport_error :
    deadTransport World.empty ⟨false⟩ (Call.request .ResetServersState)
      = .error (.transport "connection refused") ∧
    ((⟨deadTransport⟩ : client).ResetServersState ⟨false⟩ World.empty).1
      = some (.WrapIf (.transport "connection refused")
          "remote/servers: failed to reset server state on Panel") ∧
    ((⟨deadTransport⟩ : client).ResetServersState ⟨false⟩ World.empty).1
      ≠ some (.transport "connection refused") := by
  refine ⟨rfl, rfl, ?_⟩
  decide

/-- C8, amended: when the first transport call of an operation (`get` or `post`; for
`GetServers` the page-0 fetch) fails with `e`, the operation issues no further request;
every operation other than `ResetServersState` returns exactly `e`, and
`ResetServersState` returns `e` wrapped by `errors.WrapIf` with the message
"remote/servers: failed to reset server state on Panel". -/
theorem transport_error_propagated (c : client) (ctx : Context) (w : World) (call : Call)
    (e : Error) (h : c.transport w ctx call.request = .error e) :
    (call ≠ .ResetServersState → (call.run c ctx w).1 = some e) ∧
    (call = .ResetServersState → (call.run c ctx w).1
      = some (.WrapIf e "remote/servers: failed to reset server state on Panel")) ∧
    (call.run c ctx w).2.since w = [⟨ctx, call.request, .error e, 0⟩] ∧
    (call.run c ctx w).2.warnings = w.warnings := by
  rw [run_of_transport_error c ctx w call e h]
  refine ⟨?_, ?_, ?_, rfl⟩
  · intro hne; simp [hne]
  · intro heq; simp [heq]
  · simp [World.since]

theorem transport_error_propagated_witness :
    (deadTransport World.empty ⟨false⟩ (Call.GetServers [0] 25).request
      = .error (.transport "connection refused")) ∧
    (Call.GetServers [0] 25 ≠ .ResetServersState →
      ((Call.GetServers [0] 25).run ⟨deadTransport⟩ ⟨false⟩ World.empty).1
        = some (.transport "connection refused")) ∧
    (Call.GetServers [0] 25 = .ResetServersState →
      ((Call.GetServers [0] 25).run ⟨deadTransport⟩ ⟨false⟩ World.empty).1
        = some (.WrapIf (.transport "connection refused")
            "remote/servers: failed to reset server state on Panel")) ∧
    ((Call.GetServers [0] 25).run ⟨deadTransport⟩ ⟨false⟩ World.empty).2.since World.empty
      = [⟨⟨false⟩, (Call.GetServers [0] 25).request,
          .error (.transport "connection refused"), 0⟩] ∧
    ((Call.GetServers [0] 25).run ⟨deadTransport⟩ ⟨false⟩ World.empty).2.warnings
      = World.empty.warnings :=
  ⟨rfl,
    transport_error_propagated ⟨deadTransport⟩ ⟨false⟩ World.empty (.GetServers [0] 25)
      (.transport "connection refused") rfl⟩

/-- C7, the failing input: the Panel answers `POST /servers/reset` with status 500 and an
error.  `ResetServersState` closes the body and returns `nil`, although the response
carries an error; `SetInstallationStatus`, on the same Panel, returns that error. -/
theorem ResetServersState_ignores_error_status :
    (errorResponse 500 "Internal Server Error").HasError = true ∧
    ((⟨failingPanel 500 "Internal Server Error"⟩ : client).ResetServersState ⟨false⟩
      World.empty).1 = none ∧
    (((⟨failingPanel 500 "Internal Server Error"⟩ : client).ResetServersState ⟨false⟩
      World.empty).2.since World.empty).map (fun x => (x.status, x.closed))
      = [(some (.remote "Internal Server Error"), 1)] ∧
    ((⟨failingPanel 500 "Internal Server Error"⟩ : client).SetInstallationStatus ⟨false⟩
      "d3aac109" true World.empty).1 = some (.remote "Internal Server Error") := by
  decide

/-- C1, the claim as stated fails: a control plane holding 30 records that reads `page` as a
zero-based index and reports one-based metadata answers page 0 with 10 records and
`last_page = 3`; `GetServers(ctx, 10)` then requests pages 2 and 3, never page index 1, and
returns 20 records, not 30. -/
theorem GetServers_zero_based_loses_a_page :
    (((⟨zeroBasedPanel (sampleRecords 30)⟩ : client).GetServers [] ⟨false⟩ 10
        World.empty).2.since World.empty).map
      (fun x => (x.req.query, x.pageData.length, x.pageMeta.LastPage))
      = [([("page", "0"), ("per_page", "10")], 10, 3),
         ([("page", "2"), ("per_page", "10")], 10, 3),
         ([("page", "3"), ("per_page", "10")], 0, 3)] ∧
    ((⟨zeroBasedPanel (sampleRecords 30)⟩ : client).GetServers [] ⟨false⟩ 10
        World.empty).1.2 = none ∧
    ((⟨zeroBasedPanel (sampleRecords 30)⟩ : client).GetServers [] ⟨false⟩ 10
        World.empty).1.1.length = 20 ∧
    ((⟨zeroBasedPanel (sampleRecords 30)⟩ : client).GetServers [] ⟨false⟩ 10
        World.empty).1.1.length ≠ (sampleRecords 30).length := by
  decide

/-- C1, amended: pagination is transparent on a control plane that numbers pages from 1.
For every page size `L >= 1` and every record list of length `R`, when the control plane
answers a request for page `p` with page `max(p, 1)` (records
`(max(p,1)-1)*L .. max(p,1)*L-1`) and reports `current_page = max(p, 1)` and
`last_page = max(1, ceil(R/L))`, `GetServers(ctx, L)` returns no error and exactly `R`
records, under every schedule. -/
theorem GetServers_pagination_transparent (records : List RawServerData) (L : Nat)
    (hL : 1 ≤ L) (sched : List Nat) (ctx : Context) (w : World) :
    ((⟨Panel records⟩ : client).GetServers sched ctx (L : Int) w).1.2 = none ∧
    ((⟨Panel records⟩ : client).GetServers sched ctx (L : Int) w).1.1.length
      = records.length := by
  obtain ⟨herr, hperm, -⟩ := Panel_GetServers records L hL sched ctx w
  exact ⟨herr, hperm.length_eq⟩

theorem GetServers_pagination_transparent_witness :
    1 ≤ 10 ∧
    ((⟨Panel (sampleRecords 30)⟩ : client).GetServers [0, 1] ⟨false⟩ ((10 : Nat) : Int)
      World.empty).1.2 = none ∧
    ((⟨Panel (sampleRecords 30)⟩ : client).GetServers [0, 1] ⟨false⟩ ((10 : Nat) : Int)
      World.empty).1.1.length = (sampleRecords 30).length :=
  ⟨by decide,
    GetServers_pagination_transparent (sampleRecords 30) 10 (by decide) [0, 1] ⟨false⟩
      World.empty⟩

/-- C2: `GetServers` returns all of the servers present on the Panel.  For every page size
`L >= 1` and every record list, when the Panel numbers pages from 1 and answers a request
for page `p` with page `max(p, 1)`, reporting `current_page = max(p, 1)` and
`last_page = max(1, ceil(R/L))`, `GetServers(ctx, L)` returns no error and, under every
schedule, a permutation of the Panel's records that starts with the records of page 1. -/
theorem GetServers_returns_all_servers (records : List RawServerData) (L : Nat)
    (hL : 1 ≤ L) (sched : List Nat) (ctx : Context) (w : World) :
    ((⟨Panel records⟩ : client).GetServers sched ctx (L : Int) w).1.2 = none ∧
    ((⟨Panel records⟩ : client).GetServers sched ctx (L : Int) w).1.1.Perm records ∧
    ((⟨Panel records⟩ : client).GetServers sched ctx (L : Int) w).1.1.take L
      = records.take L :=
  Panel_GetServers records L hL sched ctx w

theorem GetServers_returns_all_servers_witness :
    1 ≤ 10 ∧
    ((⟨Panel (sampleRecords 35)⟩ : client).GetServers [2, 1, 0, 1] ⟨true⟩ ((10 : Nat) : Int)
      World.empty).1.2 = none ∧
    ((⟨Panel (sampleRecords 35)⟩ : client).GetServers [2, 1, 0, 1] ⟨true⟩ ((10 : Nat) : Int)
      World.empty).1.1.Perm (sampleRecords 35) ∧
    ((⟨Panel (sampleRecords 35)⟩ : client).GetServers [2, 1, 0, 1] ⟨true⟩ ((10 : Nat) : Int)
      World.empty).1.1.take 10 = (sampleRecords 35).take 10 :=
  ⟨by decide,
    GetServers_returns_all_servers (sampleRecords 35) 10 (by decide) [2, 1, 0, 1] ⟨true⟩
      World.empty⟩

/-- The order of the pages in the result depends on the schedule: with the goroutine of
page 3 appending first, page 3 precedes page 2. -/
theorem GetServers_order_depends_on_schedule :
    (((⟨Panel (sampleRecords 30)⟩ : client).GetServers [] ⟨false⟩ 10 World.empty).1.1.map
        fun r => r.Uuid)
      = ((sampleRecords 30).map fun r => r.Uuid) ∧
    (((⟨Panel (sampleRecords 30)⟩ : client).GetServers [1, 0, 1] ⟨false⟩ 10 World.empty).1.1.map
        fun r => r.Uuid)
      = (((sampleRecords 30).take 10 ++ (sampleRecords 30).drop 20
          ++ ((sampleRecords 30).drop 10).take 10).map fun r => r.Uuid) := by
  decide

end Remote
